import Mathlib

set_option maxRecDepth 40000

/-!
# Verification of the raymond template engine (lexer, parser, helpers, data frames)

This file is a shallow embedding, in Lean 4, of the Go sources of the raymond
Handlebars implementation:

* `src/lexer/lexer.go`  — the mode-switching lexer (`lexContent`, `lexExpression`,
  `lexString`, `lexNumber`, `lexComment`, ...), embedded as a step function over an
  explicit lexer state, driven by fuel.  Byte positions coincide with character
  positions because all inputs of interest are ASCII; Go's `unicode.IsLetter` /
  `unicode.IsDigit` are modelled by their ASCII restrictions.
* `src/parser/parser.go` — the recursive-descent parser, embedded over the token
  list produced by the lexer (the Go code pulls tokens lazily from a channel, but
  the lexer is deterministic, so this is observationally identical).
* `src/data_frame.go`    — private data frames.  Frames are mutable in Go, so they
  are embedded as a store (list) of frames addressed by index; `Set` mutates the
  store at an index, which lets aliasing questions be stated faithfully.
* helper registration and the builtin `each` helper from the `raymond` package
  sources shipped with the repository.

Go `panic` sites (which are unreachable in the executions considered here) are
modelled as terminal error tokens / error results, and noted where they occur.
-/

namespace Raymond

/-- Convert a string literal to the character-list representation used throughout. -/
def cs (s : String) : List Char := s.toList

/-- The backslash character (modelled by code point to keep sources readable). -/
def bsl : Char := Char.ofNat 92

/-- The double-quote character. -/
def dq : Char := Char.ofNat 34

/-- The single-quote character. -/
def sq : Char := Char.ofNat 39

/-! ## Token kinds (src/lexer/lexer.go, `const` block) -/

inductive TokenKind where
  | TokenError
  | TokenEOF
  | TokenOpen
  | TokenClose
  | TokenOpenRawBlock
  | TokenCloseRawBlock
  | TokenOpenUnescaped
  | TokenCloseUnescaped
  | TokenOpenBlock
  | TokenOpenEndBlock
  | TokenInverse
  | TokenOpenInverse
  | TokenOpenInverseChain
  | TokenOpenPartialK
  | TokenEndRawBlock
  | TokenComment
  | TokenOpenSexpr
  | TokenCloseSexpr
  | TokenEquals
  | TokenData
  | TokenSep
  | TokenOpenBlockParams
  | TokenCloseBlockParams
  | TokenContent
  | TokenID
  | TokenString
  | TokenNumber
  | TokenBoolean
  | TokenOpenEndRawBlock
deriving DecidableEq, Repr

/-- A scanned token: kind, start position in the input, and raw value
(`l.input[l.start:l.pos]` at emission time). -/
structure Token where
  kind : TokenKind
  pos : Nat
  val : List Char
deriving DecidableEq, Repr

/-! ## Lexer state and primitive operations (Lexer struct and methods) -/

/-- The mutable scanner state of `lexer.Lexer`: input, current position, width of
the last rune scanned, start of the pending token, and which close-comment
pattern is active (`l.closeComment`; `true` means the `--}}` variant). -/
structure LexState where
  input : List Char
  pos : Nat
  width : Nat
  start : Nat
  commentDash : Bool
deriving DecidableEq, Repr

def initLexState (input : List Char) : LexState :=
  ⟨input, 0, 0, 0, false⟩

/-- The input remaining from the current scan position (`l.input[l.pos:]`). -/
def rem (l : LexState) : List Char := l.input.drop l.pos

/-- `l.next()`: returns the next character (or `none` for eof) and advances. -/
def lexNext (l : LexState) : Option Char × LexState :=
  match rem l with
  | [] => (none, { l with width := 0 })
  | c :: _ => (some c, { l with width := 1, pos := l.pos + 1 })

/-- `l.backup()`: steps back one character (by the width of the last `next`). -/
def lexBackup (l : LexState) : LexState :=
  { l with pos := l.pos - l.width }

/-- `l.peek()`: `next` followed by `backup` (so it updates `width`). -/
def lexPeek (l : LexState) : Option Char × LexState :=
  let (r, l1) := lexNext l
  (r, lexBackup l1)

/-- `l.ignore()`: drops the scanned-but-unemitted text. -/
def lexIgnore (l : LexState) : LexState :=
  { l with start := l.pos }

/-- `l.emit(kind)`: emits `input[start:pos]` and restarts token scanning at `pos`. -/
def emitTok (l : LexState) (k : TokenKind) : Token × LexState :=
  (⟨k, l.start, (l.input.take l.pos).drop l.start⟩, { l with start := l.pos })

/-- `l.accept(valid)`: consumes the next character when it belongs to `valid`. -/
def lexAccept (valid : List Char) (l : LexState) : Bool × LexState :=
  let (r, l1) := lexNext l
  match r with
  | some c => if valid.contains c then (true, l1) else (false, lexBackup l1)
  | none => (false, lexBackup l1)

/-- `l.acceptRun(valid)`: consumes the maximal run of characters from `valid`.
The final `width` is that of the rune the run stopped on (0 at end of input). -/
def lexAcceptRun (valid : List Char) (l : LexState) : LexState :=
  let k := ((rem l).takeWhile (fun c => valid.contains c)).length
  { l with pos := l.pos + k, width := if (rem l).drop k = [] then 0 else 1 }

/-- `l.isString(str)`: does the remaining input start with `w`? -/
def strPref : List Char → List Char → Bool
  | [], _ => true
  | _ :: _, [] => false
  | a :: as, b :: bs => a = b && strPref as bs

/-! ## The anchored regular expressions of the lexer, as prefix matchers

Each matcher returns the length of the match of the corresponding anchored Go
regexp against the given suffix of the input (`none` when there is no match; all
the patterns below match at least one character whenever they match, which is
what `findRegexp(...) != ""` tests).  Go's `\s` is `[\t\n\f\r ]`. -/

def goWs (c : Char) : Bool :=
  c = ' ' || c = '\t' || c = '\n' || c = '\r' || c = Char.ofNat 12

/-- Matches a literal word. -/
def mLit (w : List Char) : List Char → Option Nat :=
  fun s => if strPref w s then some w.length else none

/-- Matches `c?` (always succeeds, length 0 or 1). -/
def mOptC (c : Char) : List Char → Option Nat :=
  fun s => match s with
  | x :: _ => if x = c then some 1 else some 0
  | [] => some 0

/-- Matches `\s*` (always succeeds). -/
def mWsStar : List Char → Option Nat :=
  fun s => some (s.takeWhile goWs).length

/-- Matches `\s+`. -/
def mWsPlus : List Char → Option Nat :=
  fun s => let n := (s.takeWhile goWs).length; if n = 0 then none else some n

/-- Sequencing of matchers (concatenation of regexps; the patterns used here
never need backtracking, see the individual definitions). -/
def mChain : List (List Char → Option Nat) → List Char → Option Nat
  | [], _ => some 0
  | m :: ms, s =>
    match m s with
    | none => none
    | some n =>
      match mChain ms (s.drop n) with
      | none => none
      | some k => some (n + k)

/-- Alternation; Go's regexp prefers the first alternative. -/
def mAlt (m1 m2 : List Char → Option Nat) : List Char → Option Nat :=
  fun s => match m1 s with
  | some n => some n
  | none => m2 s

def rOpenRaw : List Char → Option Nat := mLit (cs "\x7b\x7b\x7b\x7b")

def rCloseRaw : List Char → Option Nat := mLit (cs "\x7d\x7d\x7d\x7d")

def rOpenUnescaped : List Char → Option Nat :=
  mChain [mLit (cs "\x7b\x7b"), mOptC '~', mLit (cs "\x7b")]

def rCloseUnescaped : List Char → Option Nat :=
  mChain [mLit (cs "\x7d"), mOptC '~', mLit (cs "\x7d\x7d")]

def rOpenBlock : List Char → Option Nat :=
  mChain [mLit (cs "\x7b\x7b"), mOptC '~', mLit (cs "#")]

def rOpenEndBlock : List Char → Option Nat :=
  mChain [mLit (cs "\x7b\x7b"), mOptC '~', mLit (cs "/")]

def rOpenPartialM : List Char → Option Nat :=
  mChain [mLit (cs "\x7b\x7b"), mOptC '~', mLit (cs ">")]

/-- `^({{~?\^\s*~?}}|{{~?\s*else\s*~?}})` -/
def rInverse : List Char → Option Nat :=
  mAlt (mChain [mLit (cs "\x7b\x7b"), mOptC '~', mLit (cs "^"), mWsStar, mOptC '~', mLit (cs "\x7d\x7d")])
       (mChain [mLit (cs "\x7b\x7b"), mOptC '~', mWsStar, mLit (cs "else"), mWsStar, mOptC '~', mLit (cs "\x7d\x7d")])

def rOpenInverse : List Char → Option Nat :=
  mChain [mLit (cs "\x7b\x7b"), mOptC '~', mLit (cs "^")]

def rOpenInverseChain : List Char → Option Nat :=
  mChain [mLit (cs "\x7b\x7b"), mOptC '~', mWsStar, mLit (cs "else")]

/-- `^{{~?&?` -/
def rOpen : List Char → Option Nat :=
  mChain [mLit (cs "\x7b\x7b"), mOptC '~', mOptC '&']

/-- `^~?}}` -/
def rClose : List Char → Option Nat :=
  mChain [mOptC '~', mLit (cs "\x7d\x7d")]

/-- `^as\s+\|` -/
def rOpenBlockParams : List Char → Option Nat :=
  mChain [mLit (cs "as"), mWsPlus, mLit (cs "|")]

/-- `^{{~?!--\s*` -/
def rOpenCommentDash : List Char → Option Nat :=
  mChain [mLit (cs "\x7b\x7b"), mOptC '~', mLit (cs "!--"), mWsStar]

/-- `^\s*--~?}}` -/
def rCloseCommentDash : List Char → Option Nat :=
  mChain [mWsStar, mLit (cs "--"), mOptC '~', mLit (cs "\x7d\x7d")]

/-- `^{{~?!\s*` -/
def rOpenComment : List Char → Option Nat :=
  mChain [mLit (cs "\x7b\x7b"), mOptC '~', mLit (cs "!"), mWsStar]

/-- `^\s*~?}}` -/
def rCloseComment : List Char → Option Nat :=
  mChain [mWsStar, mOptC '~', mLit (cs "\x7d\x7d")]

/-- The characters not allowed in an identifier (`unallowedIDChars`). -/
def unallowedIDChar (c : Char) : Bool :=
  c = ' ' || c = '\t' || c = '!' || c = dq || c = '#' || c = '%' || c = '&' ||
  c = sq || c = '(' || c = ')' || c = '*' || c = '+' || c = ',' || c = '.' ||
  c = '/' || c = ';' || c = '<' || c = '=' || c = '>' || c = '@' || c = '[' ||
  c = bsl || c = ']' || c = '^' || c = '`' || c = '{' || c = '|' || c = '}' || c = '~'

/-- `^[^ \t!"#%&'()*+,./;<=>@[\\\]^`{|}~]+` -/
def rID : List Char → Option Nat :=
  fun s =>
    let n := (s.takeWhile (fun c => !unallowedIDChar c)).length
    if n = 0 then none else some n

/-- `isIgnorable`: space, tab or line feed (not carriage return). -/
def isIgnorable : Option Char → Bool
  | some c => c = ' ' || c = '\t' || c = '\n'
  | none => false

/-- `isAlphaNumeric` restricted to ASCII (underscore, letter or digit). -/
def isAlphaNumericC (c : Char) : Bool :=
  c = '_' || c.isAlpha || c.isDigit

/-! ## The lexing step functions -/

/-- The names of the `lexFunc`s of the Go lexer. -/
inductive LexFn where
  | content
  | escapedOpenMustache
  | openMustache
  | closeMustache
  | expression
  | comment
  | ignorable
  | strLit
  | number
  | ident
deriving DecidableEq, Repr

/-- The result of running one `lexFunc`: the tokens it sent on the channel and
the next function to run (with the updated state), or `none` when lexing stops. -/
structure StepOut where
  toks : List Token
  next : Option (LexFn × LexState)
deriving Repr

/-- `l.errorf(...)`: emits a terminal error token and stops the lexer. -/
def errorf (l : LexState) (msg : List Char) : StepOut :=
  ⟨[⟨.TokenError, l.start, msg⟩], none⟩

/-- Emit the pending content (`if l.pos > l.start { l.emit(TokenContent) }`). -/
def emitPendingContent (l : LexState) : List Token × LexState :=
  if l.start < l.pos then
    let (t, l1) := emitTok l .TokenContent
    ([t], l1)
  else ([], l)

/-- The tail of `lexContent` when an opening delimiter was recognized: emit any
pending content, then switch to the recognized mode. -/
def contentTrans (l : LexState) (fn : LexFn) : StepOut :=
  let (ts, l1) := emitPendingContent l
  ⟨ts, some (fn, l1)⟩

/-- The tail of `lexContent` when no delimiter starts here: scan one more rune,
or finish with the pending content plus the EOF token. -/
def contentFall (l : LexState) : StepOut :=
  let (r, l1) := lexNext l
  match r with
  | none =>
    let (ts, l2) := emitPendingContent l1
    let (te, _) := emitTok l2 .TokenEOF
    ⟨ts ++ [te], none⟩
  | some _ => ⟨[], some (.content, l1)⟩

/-- `lexContent`: scanning text outside mustaches.  Note the escaped-mustache
check reads the character before the current position using the *stale* width
of the last `next()` call, exactly as the Go code does. -/
def stepContent (l : LexState) : StepOut :=
  if strPref (cs "\x5c\x7b\x7b") (rem l) then
    let l1 := lexBackup l
    let (r, l2) := lexNext l1
    if r ≠ some bsl then
      contentTrans l2 .escapedOpenMustache
    else
      contentFall l2
  else if (rOpenCommentDash (rem l)).isSome then
    contentTrans { l with commentDash := true } .comment
  else if (rOpenComment (rem l)).isSome then
    contentTrans { l with commentDash := false } .comment
  else if strPref (cs "\x7b\x7b") (rem l) then
    contentTrans l .openMustache
  else
    contentFall l

/-- `lexEscapedOpenMustache`: drop the escape character, then scan over the
mustache braces so they are kept as literal content. -/
def stepEscapedOpenMustache (l : LexState) : StepOut :=
  let (_, l1) := lexNext l
  let l2 := lexIgnore l1
  let k := ((rem l2).takeWhile (fun c => c = '{')).length
  let l3 := { l2 with pos := l2.pos + k, width := if (rem l2).drop k = [] then 0 else 1 }
  ⟨[], some (.content, l3)⟩

/-- `lexOpenMustache`: classify the opening delimiter, most specific first.
The Go function panics when no pattern matches, which cannot happen since it is
entered only when the input starts with an open mustache; the panic is modelled
as a terminal error token. -/
def stepOpenMustache (l : LexState) : StepOut :=
  let pick : Option (Nat × TokenKind × LexFn) :=
    match rOpenRaw (rem l) with
    | some n => some (n, .TokenOpenRawBlock, .expression)
    | none =>
    match rOpenUnescaped (rem l) with
    | some n => some (n, .TokenOpenUnescaped, .expression)
    | none =>
    match rOpenBlock (rem l) with
    | some n => some (n, .TokenOpenBlock, .expression)
    | none =>
    match rOpenEndBlock (rem l) with
    | some n => some (n, .TokenOpenEndBlock, .expression)
    | none =>
    match rOpenPartialM (rem l) with
    | some n => some (n, .TokenOpenPartialK, .expression)
    | none =>
    match rInverse (rem l) with
    | some n => some (n, .TokenInverse, .content)
    | none =>
    match rOpenInverse (rem l) with
    | some n => some (n, .TokenOpenInverse, .expression)
    | none =>
    match rOpenInverseChain (rem l) with
    | some n => some (n, .TokenOpenInverseChain, .expression)
    | none =>
    match rOpen (rem l) with
    | some n => some (n, .TokenOpen, .expression)
    | none => none
  match pick with
  | some (n, tk, fn) =>
    let l1 := { l with pos := l.pos + n }
    let (t, l2) := emitTok l1 tk
    ⟨[t], some (fn, l2)⟩
  | none => errorf l (cs "go panic: Current pos MUST be an opening mustache")

/-- `lexCloseMustache` (same remark about the panic branch). -/
def stepCloseMustache (l : LexState) : StepOut :=
  let pick : Option (Nat × TokenKind) :=
    match rCloseRaw (rem l) with
    | some n => some (n, .TokenCloseRawBlock)
    | none =>
    match rCloseUnescaped (rem l) with
    | some n => some (n, .TokenCloseUnescaped)
    | none =>
    match rClose (rem l) with
    | some n => some (n, .TokenClose)
    | none => none
  match pick with
  | some (n, tk) =>
    let l1 := { l with pos := l.pos + n }
    let (t, l2) := emitTok l1 tk
    ⟨[t], some (.content, l2)⟩
  | none => errorf l (cs "go panic: Current pos MUST be a closing mustache")

/-- `lexExpression`: scanning inside mustaches. -/
def stepExpression (l : LexState) : StepOut :=
  if strPref (cs "\x7d\x7d") (rem l) || strPref (cs "~\x7d\x7d") (rem l) then
    let (ts, l1) := emitPendingContent l
    ⟨ts, some (.closeMustache, l1)⟩
  else
    match rOpenBlockParams (rem l) with
    | some n =>
      let l1 := { l with pos := l.pos + n }
      let (t, l2) := emitTok l1 .TokenOpenBlockParams
      ⟨[t], some (.expression, l2)⟩
    | none =>
    if strPref (cs "true") (rem l) then
      let l1 := { l with pos := l.pos + 4 }
      let (t, l2) := emitTok l1 .TokenBoolean
      ⟨[t], some (.expression, l2)⟩
    else if strPref (cs "false") (rem l) then
      let l1 := { l with pos := l.pos + 5 }
      let (t, l2) := emitTok l1 .TokenBoolean
      ⟨[t], some (.expression, l2)⟩
    else
      let (r, l1) := lexNext l
      match r with
      | none => errorf l1 (cs "Unclosed expression")
      | some c =>
        if isIgnorable (some c) then ⟨[], some (.ignorable, l1)⟩
        else if c = '(' then
          let (t, l2) := emitTok l1 .TokenOpenSexpr
          ⟨[t], some (.expression, l2)⟩
        else if c = ')' then
          let (t, l2) := emitTok l1 .TokenCloseSexpr
          ⟨[t], some (.expression, l2)⟩
        else if c = '=' then
          let (t, l2) := emitTok l1 .TokenEquals
          ⟨[t], some (.expression, l2)⟩
        else if c = '@' then
          let (t, l2) := emitTok l1 .TokenData
          ⟨[t], some (.expression, l2)⟩
        else if c = dq || c = sq then
          ⟨[], some (.strLit, lexBackup l1)⟩
        else if c = '/' || c = '.' then
          let (t, l2) := emitTok l1 .TokenSep
          ⟨[t], some (.expression, l2)⟩
        else if c = '|' then
          let (t, l2) := emitTok l1 .TokenCloseBlockParams
          ⟨[t], some (.expression, l2)⟩
        else if c = '+' || c = '-' || ('0' ≤ c && c ≤ '9') then
          ⟨[], some (.number, lexBackup l1)⟩
        else if !unallowedIDChar c then
          ⟨[], some (.ident, lexBackup l1)⟩
        else
          errorf l1 (cs "Unexpected character in expression")

/-- `lexComment`: scan until the active close-comment pattern matches. -/
def stepComment (l : LexState) : StepOut :=
  let rcc := if l.commentDash then rCloseCommentDash else rCloseComment
  match rcc (rem l) with
  | some n =>
    let l1 := { l with pos := l.pos + n }
    let (t, l2) := emitTok l1 .TokenComment
    ⟨[t], some (.content, l2)⟩
  | none =>
    let (r, l1) := lexNext l
    match r with
    | none => errorf l1 (cs "Unclosed comment")
    | some _ => ⟨[], some (.comment, l1)⟩

/-- `lexIgnorable`: skip the run of ignorable characters without emitting. -/
def stepIgnorable (l : LexState) : StepOut :=
  let k := ((rem l).takeWhile (fun c => isIgnorable (some c))).length
  let l1 := { l with pos := l.pos + k, width := if (rem l).drop k = [] then 0 else 1 }
  let l2 := lexIgnore l1
  ⟨[], some (.expression, l2)⟩

/-- The scan loop of `lexString`: the number of characters consumed up to and
including the closing delimiter, or `none` when the string is unterminated
(end of input, bare newline, or backslash before newline/end of input). -/
def scanStringChars (delim : Char) : List Char → Option Nat
  | [] => none
  | c :: rest =>
    if c = bsl then
      match rest with
      | [] => none
      | r :: rest2 =>
        if r = '\n' then none
        else
          match scanStringChars delim rest2 with
          | some n => some (n + 2)
          | none => none
    else if c = '\n' then none
    else if c = delim then some 1
    else
      match scanStringChars delim rest with
      | some n => some (n + 1)
      | none => none

/-- `lexString`. -/
def stepString (l : LexState) : StepOut :=
  let (d, l1) := lexNext l
  match d with
  | none => errorf (lexIgnore l1) (cs "Unterminated string")
  | some delim =>
    let l2 := lexIgnore l1
    match scanStringChars delim (rem l2) with
    | none => errorf l2 (cs "Unterminated string")
    | some n =>
      let l3 := { l2 with pos := l2.pos + n, width := 1 }
      let l4 := lexBackup l3
      let (t, l5) := emitTok l4 .TokenString
      let (_, l6) := lexNext l5
      let l7 := lexIgnore l6
      ⟨[t], some (.expression, l7)⟩

def decDigits : List Char := cs "0123456789"

def hexDigits : List Char := cs "0123456789abcdefABCDEF"

/-- `l.scanNumber()`. -/
def scanNumber (l : LexState) : Bool × LexState :=
  let (_, l1) := lexAccept (cs "+-") l
  let (z, l2) := lexAccept (cs "0") l1
  let (h, l3) := if z then lexAccept (cs "xX") l2 else (false, l2)
  let digits := if z && h then hexDigits else decDigits
  let l4 := lexAcceptRun digits l3
  let (dot, l5) := lexAccept (cs ".") l4
  let l6 := if dot then lexAcceptRun digits l5 else l5
  let (e, l7) := lexAccept (cs "eE") l6
  let l8 :=
    if e then
      let (_, la) := lexAccept (cs "+-") l7
      lexAcceptRun decDigits la
    else l7
  let (_, l9) := lexAccept (cs "i") l8
  let (pk, l10) := lexPeek l9
  match pk with
  | some c => if isAlphaNumericC c then (false, (lexNext l10).2) else (true, l10)
  | none => (true, l10)

/-- `lexNumber`. -/
def stepNumber (l : LexState) : StepOut :=
  let (ok1, l1) := scanNumber l
  if !ok1 then
    errorf l1 (cs "bad number syntax: " ++ (l1.input.take l1.pos).drop l1.start)
  else
    let (sg, l2) := lexPeek l1
    if sg = some '+' || sg = some '-' then
      let (ok2, l3) := scanNumber l2
      if !ok2 then
        errorf l3 (cs "bad number syntax: " ++ (l3.input.take l3.pos).drop l3.start)
      else if l3.input.getD (l3.pos - 1) ' ' ≠ 'i' then
        errorf l3 (cs "bad number syntax: " ++ (l3.input.take l3.pos).drop l3.start)
      else
        let (t, l4) := emitTok l3 .TokenNumber
        ⟨[t], some (.expression, l4)⟩
    else
      let (t, l4) := emitTok l2 .TokenNumber
      ⟨[t], some (.expression, l4)⟩

/-- `lexIdentifier` (the panic branch, again modelled as a terminal error). -/
def stepIdent (l : LexState) : StepOut :=
  match rID (rem l) with
  | some n =>
    let l1 := { l with pos := l.pos + n }
    let (t, l2) := emitTok l1 .TokenID
    ⟨[t], some (.expression, l2)⟩
  | none => errorf l (cs "go panic: Identifier expected")

/-- One step of the lexer: dispatch on the current `lexFunc`. -/
def lexStep : LexFn → LexState → StepOut
  | .content, l => stepContent l
  | .escapedOpenMustache, l => stepEscapedOpenMustache l
  | .openMustache, l => stepOpenMustache l
  | .closeMustache, l => stepCloseMustache l
  | .expression, l => stepExpression l
  | .comment, l => stepComment l
  | .ignorable, l => stepIgnorable l
  | .strLit, l => stepString l
  | .number, l => stepNumber l
  | .ident, l => stepIdent l

/-- `l.run()`: iterate the step function, collecting emitted tokens, with fuel
(the Go loop terminates because every round of steps makes progress; the fuel
used by `tokenize` below is generous enough that the runs evaluated in this
file all end at their EOF or error token). -/
def lexRunAux : Nat → LexFn → LexState → List Token
  | 0, _, _ => []
  | fuel + 1, fn, l =>
    match lexStep fn l with
    | ⟨toks, none⟩ => toks
    | ⟨toks, some (fn', l')⟩ => toks ++ lexRunAux fuel fn' l'

/-- The token stream of an input, as consumed by the parser. -/
def tokenize (input : List Char) : List Token :=
  lexRunAux (8 * input.length + 64) .content (initLexState input)

/-! ## AST (src/ast/ast.go, plus the fields the parser requires)

The `src/ast/ast.go` snapshot predates `src/parser/parser.go`: the parser also
uses `Program.BlockParams`, `BlockStatement.Program`, a three-argument
`NewNumberLiteral`/`NewBooleanLiteral` (carrying the original text) and the
`PathExpression` methods `Part`/`Sep` and fields `Depth`/`Original`.  The node
variants below follow `src/ast/ast.go` extended with exactly those fields; the
missing `Part`/`Sep` behaviour is modelled from the spec (see `pathPart`).
As in Go, where every field is typed `ast.Node`, a single inductive covers all
node kinds.  String-valued fields use `List Char`. -/

inductive Node where
  | program (pos : Nat) (body : List Node) (blockParams : List (List Char))
  | contentStmt (pos : Nat) (value : List Char)
  | commentStmt (pos : Nat) (value : List Char)
  | mustache (pos : Nat) (path : Node) (params : List Node) (hn : Option Node)
  | blockStmt (pos : Nat) (path : Node) (params : List Node) (hn : Option Node)
      (progOpt : Option Node) (inverse : Option Node)
  | partialStmt (pos : Nat) (name : Node) (params : List Node) (hn : Option Node)
  | subExpr (pos : Nat) (path : Node) (params : List Node) (hn : Option Node)
  | pathExpr (pos : Nat) (data : Bool) (depth : Nat) (parts : List (List Char))
      (original : List Char)
  | strLit (pos : Nat) (value : List Char)
  | numLit (pos : Nat) (value : Int) (original : List Char)
  | boolLit (pos : Nat) (value : Bool) (original : List Char)
  | hashNode (pos : Nat) (pairs : List Node)
  | hashPair (pos : Nat) (key : List Char) (v : Node)

/-- `Node.Position()`. -/
def nodePos : Node → Nat
  | .program pos _ _ => pos
  | .contentStmt pos _ => pos
  | .commentStmt pos _ => pos
  | .mustache pos _ _ _ => pos
  | .blockStmt pos _ _ _ _ _ => pos
  | .partialStmt pos _ _ _ => pos
  | .subExpr pos _ _ _ => pos
  | .pathExpr pos _ _ _ _ => pos
  | .strLit pos _ => pos
  | .numLit pos _ _ => pos
  | .boolLit pos _ _ => pos
  | .hashNode pos _ => pos
  | .hashPair pos _ _ => pos

/-- `ast.NewPathExpression(pos, data)`: empty parts, zero depth, empty original. -/
def newPathExpr (pos : Nat) (data : Bool) : Node :=
  .pathExpr pos data 0 [] []

/-- Modelled from the spec: `ast.PathExpression.Part` is missing from `src/`
(the `src/ast/ast.go` snapshot predates the parser that calls it).  Spec §4.2:
"Path parse rule: each leading `../` increments the depth counter; bare
`this`/`.` denotes identity; a leading `this/` prefix before further segments
is stripped."  So a `..` part increments `Depth`, a `.` or `this` part records
no segment, and any other part is appended to `Parts`; every part is appended
to the `Original` text. -/
def pathPart (n : Node) (part : List Char) : Node :=
  match n with
  | .pathExpr pos data depth parts original =>
    if part = cs ".." then .pathExpr pos data (depth + 1) parts (original ++ part)
    else if part = cs "." || part = cs "this" then .pathExpr pos data depth parts (original ++ part)
    else .pathExpr pos data depth (parts ++ [part]) (original ++ part)
  | other => other

/-- Modelled from the spec, together with `pathPart`: `ast.PathExpression.Sep`
records the separator in the `Original` text. -/
def pathSep (n : Node) (sep : List Char) : Node :=
  match n with
  | .pathExpr pos data depth parts original => .pathExpr pos data depth parts (original ++ sep)
  | other => other

/-- `Program.BlockParams = blockParams` (assignment done by `parseBlock`). -/
def setProgBlockParams (n : Node) (bps : List (List Char)) : Node :=
  match n with
  | .program pos body _ => .program pos body bps
  | other => other

/-- `strconv.Atoi` on the raw token text: an optional sign followed by decimal
digits; anything else is an error (`none`).  64-bit overflow is not modelled;
the values in this development are tiny. -/
def atoiDigits (ds : List Char) : Option Nat :=
  if ds = [] then none
  else if ds.all Char.isDigit then
    some (ds.foldl (fun a c => 10 * a + (c.toNat - 48)) 0)
  else none

def atoi (s : List Char) : Option Int :=
  match s with
  | '+' :: rest => (atoiDigits rest).map Int.ofNat
  | '-' :: rest => (atoiDigits rest).map (fun n => -(Int.ofNat n : Int))
  | _ => (atoiDigits s).map Int.ofNat

/-- The parser strips `^\{\{~?!-?-?` from a comment token's value. -/
def stripCommentOpen (s : List Char) : List Char :=
  match mChain [mLit (cs "\x7b\x7b"), mOptC '~', mLit (cs "!"), mOptC '-', mOptC '-'] s with
  | some n => s.drop n
  | none => s

/-- The parser strips `-?-?~?\}\}$` from a comment token's value (matched at the
end, hence via the reversed text). -/
def stripCommentClose (s : List Char) : List Char :=
  match mChain [mLit (cs "\x7d\x7d"), mOptC '~', mOptC '-', mOptC '-'] s.reverse with
  | some n => (s.reverse.drop n).reverse
  | none => s

/-! ## Parser (src/parser/parser.go)

The parser state is the not-yet-consumed suffix of the token stream.  The Go
parser pulls tokens lazily from the lexer goroutine, stopping at the first
`TokenEOF`/`TokenError`; since the lexer is deterministic this is equivalent to
consuming the `tokenize` list.  A Go `p.tokens[0]` on an exhausted buffer
panics; that (unreached) situation is modelled by `panicToken`. -/

structure PState where
  toks : List Token
deriving DecidableEq, Repr

abbrev Err := List Char

abbrev PRes (α : Type) := Except Err α

def panicToken : Token := ⟨.TokenError, 0, cs "go panic: token buffer exhausted"⟩

/-- `p.next()`. -/
def pnext (p : PState) : Token := p.toks.headD panicToken

/-- `p.nextAt(i)`. -/
def pnextAt (p : PState) (i : Nat) : Token := p.toks.getD i panicToken

/-- `p.have(n)`. -/
def phave (p : PState) (n : Nat) : Bool := n ≤ p.toks.length

/-- `p.shift()`. -/
def pshift (p : PState) : Token × PState :=
  match p.toks with
  | [] => (panicToken, p)
  | t :: ts => (t, ⟨ts⟩)

/-- Printable name of a token kind (for error messages). -/
def kindStr : TokenKind → List Char
  | .TokenError => cs "TokenError"
  | .TokenEOF => cs "TokenEOF"
  | .TokenOpen => cs "TokenOpen"
  | .TokenClose => cs "TokenClose"
  | .TokenOpenRawBlock => cs "TokenOpenRawBlock"
  | .TokenCloseRawBlock => cs "TokenCloseRawBlock"
  | .TokenOpenUnescaped => cs "TokenOpenUnescaped"
  | .TokenCloseUnescaped => cs "TokenCloseUnescaped"
  | .TokenOpenBlock => cs "TokenOpenBlock"
  | .TokenOpenEndBlock => cs "TokenOpenEndBlock"
  | .TokenInverse => cs "TokenInverse"
  | .TokenOpenInverse => cs "TokenOpenInverse"
  | .TokenOpenInverseChain => cs "TokenOpenInverseChain"
  | .TokenOpenPartialK => cs "TokenOpenPartial"
  | .TokenEndRawBlock => cs "TokenEndRawBlock"
  | .TokenComment => cs "TokenComment"
  | .TokenOpenSexpr => cs "TokenOpenSexpr"
  | .TokenCloseSexpr => cs "TokenCloseSexpr"
  | .TokenEquals => cs "TokenEquals"
  | .TokenData => cs "TokenData"
  | .TokenSep => cs "TokenSep"
  | .TokenOpenBlockParams => cs "TokenOpenBlockParams"
  | .TokenCloseBlockParams => cs "TokenCloseBlockParams"
  | .TokenContent => cs "TokenContent"
  | .TokenID => cs "TokenID"
  | .TokenString => cs "TokenString"
  | .TokenNumber => cs "TokenNumber"
  | .TokenBoolean => cs "TokenBoolean"
  | .TokenOpenEndRawBlock => cs "TokenOpenEndRawBlock"

/-- Rendering of a token in error messages. -/
def tokStr (t : Token) : List Char :=
  kindStr t.kind ++ cs "[" ++ t.val ++ cs "]"

/-- `errExpect(msg, expect, tok)`. -/
def errExpectMsg (msg : List Char) (expect : TokenKind) (tok : Token) : Err :=
  msg ++ cs " Expected " ++ kindStr expect ++ cs " but got: " ++ tokStr tok

/-- `p.err()`: a pending lexer error token aborts the current production. -/
def perrOpt (p : PState) : Option Err :=
  if (pnext p).kind = .TokenError then some (cs "Lexer error: " ++ (pnext p).val)
  else none

/-- `return result, p.err()` as observed by the callers (a non-nil error wins). -/
def retWithErr {α : Type} (x : α) (p : PState) : PRes (α × PState) :=
  match perrOpt p with
  | some e => .error e
  | none => .ok (x, p)

/-- `p.isToken(kind)`. -/
def pIsToken (p : PState) (k : TokenKind) : Bool :=
  phave p 1 && (pnext p).kind == k

def pIsSexpr (p : PState) : Bool := pIsToken p .TokenOpenSexpr

def pIsPathSep (p : PState) : Bool := pIsToken p .TokenSep

def pIsID (p : PState) : Bool := pIsToken p .TokenID

def pIsBlockParams (p : PState) : Bool := pIsToken p .TokenOpenBlockParams

def pIsInverse (p : PState) : Bool := pIsToken p .TokenOpenInverse

def pIsInverseChain (p : PState) : Bool := pIsToken p .TokenOpenInverseChain

/-- `p.isStatement()`. -/
def pIsStatement (p : PState) : Bool :=
  phave p 1 &&
    match (pnext p).kind with
    | .TokenOpen | .TokenOpenUnescaped | .TokenOpenBlock | .TokenOpenInverse
    | .TokenOpenRawBlock | .TokenOpenPartialK | .TokenContent | .TokenComment => true
    | _ => false

/-- `p.isHashSegment()`: two-token lookahead `ID =`. -/
def pIsHashSegment (p : PState) : Bool :=
  phave p 2 && (pnext p).kind == .TokenID && (pnextAt p 1).kind == .TokenEquals

/-- `p.isHelperName()`. -/
def pIsHelperName (p : PState) : Bool :=
  match (pnext p).kind with
  | .TokenBoolean | .TokenNumber | .TokenString | .TokenData | .TokenID => true
  | _ => false

/-- `p.isParam()`. -/
def pIsParam (p : PState) : Bool :=
  (pIsSexpr p || pIsHelperName p) && !pIsHashSegment p

def fuelErr : Err := cs "model: out of fuel"

/-- `pathSegments` loop of `parsePath`. -/
def parsePathSegs : Nat → Node → PState → PRes (Node × PState)
  | 0, _, _ => .error fuelErr
  | fuel + 1, acc, p =>
    if pIsPathSep p then
      let (tokSep, p1) := pshift p
      let acc1 := pathSep acc tokSep.val
      let (tokId, p2) := pshift p1
      if tokId.kind ≠ .TokenID then
        .error (cs "Failed to parse path, expecting ID after separator: " ++ tokStr tokId)
      else
        parsePathSegs fuel (pathPart acc1 tokId.val) p2
    else retWithErr acc p

/-- `parsePath(data)`. -/
def parsePath (fuel : Nat) (data : Bool) (p : PState) : PRes (Node × PState) :=
  let (tok, p1) := pshift p
  if tok.kind ≠ .TokenID then
    .error (cs "Failed to parse path, expecting ID: " ++ tokStr tok)
  else
    parsePathSegs fuel (pathPart (newPathExpr tok.pos data) tok.val) p1

/-- `parseDataName`. -/
def parseDataName (fuel : Nat) (p : PState) : PRes (Node × PState) :=
  let (tok, p1) := pshift p
  if tok.kind ≠ .TokenData then .error (cs "Failed to parse data: " ++ tokStr tok)
  else parsePath fuel true p1

/-- `parseHelperName`. -/
def parseHelperName (fuel : Nat) (p : PState) : PRes (Node × PState) :=
  let tok := pnext p
  match tok.kind with
  | .TokenBoolean =>
    let (_, p1) := pshift p
    retWithErr (Node.boolLit tok.pos (tok.val = cs "true") tok.val) p1
  | .TokenNumber =>
    let (_, p1) := pshift p
    match atoi tok.val with
    | none => .error (cs "strconv.Atoi: parsing: invalid syntax")
    | some v => retWithErr (Node.numLit tok.pos v tok.val) p1
  | .TokenString =>
    let (_, p1) := pshift p
    retWithErr (Node.strLit tok.pos tok.val) p1
  | .TokenData =>
    do
      let (n, p1) ← parseDataName fuel p
      retWithErr n p1
  | _ =>
    do
      let (n, p1) ← parsePath fuel false p
      retWithErr n p1

/-- `parseContent`. -/
def parseContent (p : PState) : PRes (Node × PState) :=
  let (tok, p1) := pshift p
  if tok.kind ≠ .TokenContent then
    .error (errExpectMsg (cs "Failed to parse content.") .TokenContent tok)
  else .ok (.contentStmt tok.pos tok.val, p1)

/-- `parseComment`. -/
def parseComment (p : PState) : PRes (Node × PState) :=
  let (tok, p1) := pshift p
  if tok.kind ≠ .TokenComment then
    .error (errExpectMsg (cs "Failed to parse comment.") .TokenComment tok)
  else .ok (.commentStmt tok.pos (stripCommentClose (stripCommentOpen tok.val)), p1)

/-- `parseBlockParams`: `OPEN_BLOCK_PARAMS ID+ CLOSE_BLOCK_PARAMS` (the `ID+`
loop consumes the maximal run of `TokenID`s). -/
def parseBlockParams (p : PState) : PRes (List (List Char) × PState) :=
  let (tok, p1) := pshift p
  if tok.kind ≠ .TokenOpenBlockParams then
    .error (cs "Failed to parse Block Params. Expected a TokenOpenBlockParams: " ++ tokStr tok)
  else
    let ids := p1.toks.takeWhile (fun t => t.kind == .TokenID)
    let p2 : PState := ⟨p1.toks.drop ids.length⟩
    if ids.length = 0 then
      .error (cs "Failed to parse Block Params. Missing ID: " ++ tokStr tok)
    else
      let (tok2, p3) := pshift p2
      if tok2.kind ≠ .TokenCloseBlockParams then
        .error (cs "Failed to parse Block Params. Expected a TokenCloseBlockParams: " ++ tokStr tok2)
      else retWithErr (ids.map Token.val) p3

mutual

/-- `program : statement*` (the statement loop of `ParseProgram`). -/
def parseProgramAux : Nat → PState → List Node → PRes (List Node × PState)
  | 0, _, _ => .error fuelErr
  | fuel + 1, p, acc =>
    if pIsStatement p then do
      let (n, p1) ← parseStatement fuel p
      parseProgramAux fuel p1 (acc ++ [n])
    else .ok (acc, p)

/-- `ParseProgram`.  The Go code takes the program position from `p.lex.Pos()`,
which this lexer snapshot does not define; the position of the next token is
used instead (no statement proved here depends on program positions). -/
def parseProgramM : Nat → PState → PRes (Node × PState)
  | 0, _ => .error fuelErr
  | fuel + 1, p => do
    let (stmts, p1) ← parseProgramAux fuel p []
    retWithErr (Node.program (pnext p).pos stmts []) p1

/-- `statement : mustache | block | rawBlock | partial | content | COMMENT`. -/
def parseStatement : Nat → PState → PRes (Node × PState)
  | 0, _ => .error fuelErr
  | fuel + 1, p =>
    let tok := pnext p
    match tok.kind with
    | .TokenOpen | .TokenOpenUnescaped => do
      let (n, p1) ← parseMustache fuel p
      retWithErr n p1
    | .TokenOpenBlock | .TokenOpenInverse => do
      let (n, p1) ← parseBlock fuel p
      retWithErr n p1
    | .TokenOpenRawBlock => do
      let (n, p1) ← parseRawBlock fuel p
      retWithErr n p1
    | .TokenOpenPartialK => do
      let (n, p1) ← parsePartialStmt fuel p
      retWithErr n p1
    | .TokenContent => do
      let (n, p1) ← parseContent p
      retWithErr n p1
    | .TokenComment => do
      let (n, p1) ← parseComment p
      retWithErr n p1
    | _ => .error (cs "Failed to parse statement: " ++ tokStr tok)

/-- `mustache : OPEN helperName param* hash? CLOSE` (and the unescaped form). -/
def parseMustache : Nat → PState → PRes (Node × PState)
  | 0, _ => .error fuelErr
  | fuel + 1, p =>
    let (tok, p1) := pshift p
    let closeToken : TokenKind :=
      if tok.kind = .TokenOpenUnescaped then .TokenCloseUnescaped else .TokenClose
    do
      let (path, params, hn, p2) ← parseExpression fuel p1
      let (tok2, p3) := pshift p2
      if tok2.kind ≠ closeToken then
        .error (errExpectMsg (cs "Failed to parse Mustache Statement.") closeToken tok2)
      else retWithErr (Node.mustache tok.pos path params hn) p3

/-- `openBlock`/`openInverse` — returns the partially-built block statement
data plus the block parameters.  The Go function declares a named result
`inverse bool` that is never assigned, so it always returns `false`. -/
def parseOpenBlock : Nat → PState →
    PRes ((Nat × Node × List Node × Option Node) × List (List Char) × Bool × PState)
  | 0, _ => .error fuelErr
  | fuel + 1, p =>
    let (tokOpen, p1) := pshift p
    do
      let (path, params, hn, p2) ← parseExpression fuel p1
      let (bps, p3) ←
        if pIsBlockParams p2 then parseBlockParams p2
        else .ok ([], p2)
      let (tok, p4) := pshift p3
      if tok.kind ≠ .TokenClose then
        .error (cs "Failed to parse open block. Unexpected name.")
      else
        .ok ((tokOpen.pos, path, params, hn), bps, false, p4)

/-- `block : openBlock program inverseChain? closeBlock` — the inverse and
inverse-chain branches are `// @todo` (empty) in the source, and the final
CLOSE of the end-block tag is checked against `TokenCloseRawBlock`. -/
def parseBlock : Nat → PState → PRes (Node × PState)
  | 0, _ => .error fuelErr
  | fuel + 1, p => do
    let (ob, bps, inverse, p1) ← parseOpenBlock fuel p
    let (prog0, p2) ← parseProgramM fuel p1
    let prog := setProgBlockParams prog0 bps
    -- `if inverse { if p.isInverse() { /* @todo */ } } else { if p.isInverseChain() { /* @todo */ } }`
    let _ := if inverse then pIsInverse p2 else pIsInverseChain p2
    let (tok, p3) := pshift p2
    if tok.kind ≠ .TokenOpenEndBlock then
      .error (errExpectMsg (cs "Failed to parse block.") .TokenOpenEndBlock tok)
    else do
      let (endId, p4) ← parseHelperName fuel p3
      match endId with
      | .pathExpr _ _ _ _ closeOrig =>
        match ob.2.1 with
        | .pathExpr _ _ _ _ openOrig =>
          if openOrig ≠ closeOrig then
            .error (openOrig ++ cs " Open and end blocks names mismatch: " ++ closeOrig ++
              cs " != %!s(MISSING)")
          else
            let (tok2, p5) := pshift p4
            if tok2.kind ≠ .TokenCloseRawBlock then
              .error (errExpectMsg (cs "Failed to parse block.") .TokenCloseRawBlock tok2)
            else
              retWithErr (Node.blockStmt ob.1 ob.2.1 ob.2.2.1 ob.2.2.2 (some prog) none) p5
        | _ => .error (cs "Failed to parse block. Unexpected name.")
      | _ => .error (cs "Failed to parse block. Unexpected name in end block.")

/-- `rawBlock : openRawBlock content endRawBlock`. -/
def parseRawBlock : Nat → PState → PRes (Node × PState)
  | 0, _ => .error fuelErr
  | fuel + 1, p => do
    let (tok0, p1) := pshift p
    let (path, params, hn, p2) ← parseExpression fuel p1
    match path with
    | .pathExpr _ _ _ _ openOrig =>
      let (tok, p3) := pshift p2
      if tok.kind ≠ .TokenCloseRawBlock then
        .error (errExpectMsg (cs "Failed to parse raw block.") .TokenCloseRawBlock tok)
      else do
        let (content, p4) ← parseContent p3
        let prog := Node.program tok.pos [content] []
        let (tok2, p5) := pshift p4
        if tok2.kind ≠ .TokenOpenEndRawBlock then
          .error (errExpectMsg (cs "Failed to parse raw block.") .TokenOpenEndRawBlock tok2)
        else do
          let (endId, p6) ← parseHelperName fuel p5
          match endId with
          | .pathExpr _ _ _ _ closeOrig =>
            if openOrig ≠ closeOrig then
              .error (openOrig ++ cs " Open and end blocks names mismatch: " ++ closeOrig ++
                cs " != %!s(MISSING)")
            else
              let (tok3, p7) := pshift p6
              if tok3.kind ≠ .TokenCloseRawBlock then
                .error (errExpectMsg (cs "Failed to parse raw block.") .TokenCloseRawBlock tok3)
              else
                .ok (Node.blockStmt tok0.pos path params hn (some prog) none, p7)
          | _ => .error (cs "Failed to parse raw block. Unexpected name in end block.")
    | _ => .error (cs "Failed to parse raw block. Unexpected name in open block.")

/-- `partial : OPEN_PARTIAL partialName param* hash? CLOSE`. -/
def parsePartialStmt : Nat → PState → PRes (Node × PState)
  | 0, _ => .error fuelErr
  | fuel + 1, p => do
    let (tok, p1) := pshift p
    let (name, p2) ← parseHelperNameOrSexpr fuel p1
    let (params, hn, p3) ← parseExprParamsHash fuel p2
    let (tok2, p4) := pshift p3
    if tok2.kind ≠ .TokenClose then
      .error (cs "Failed to parse Partial Statement. Expected TokenClose, but got: " ++ tokStr tok2)
    else retWithErr (Node.partialStmt tok.pos name params hn) p4

/-- `parseExpression`: `helperName param* hash?`. -/
def parseExpression : Nat → PState → PRes (Node × List Node × Option Node × PState)
  | 0, _ => .error fuelErr
  | fuel + 1, p => do
    let (helperName, p1) ← parseHelperName fuel p
    let (params, hn, p2) ← parseExprParamsHash fuel p1
    .ok (helperName, params, hn, p2)

/-- `parseExpressionParamsHash`: `param* hash?`. -/
def parseExprParamsHash : Nat → PState → PRes (List Node × Option Node × PState)
  | 0, _ => .error fuelErr
  | fuel + 1, p => do
    let (params, p1) ←
      if pIsParam p then parseParamsAux fuel p []
      else .ok ([], p)
    if pIsHashSegment p1 then do
      let (h, p2) ← parseHash fuel p1
      .ok (params, some h, p2)
    else
      .ok (params, none, p1)

/-- The `param*` loop of `parseParams`. -/
def parseParamsAux : Nat → PState → List Node → PRes (List Node × PState)
  | 0, _, _ => .error fuelErr
  | fuel + 1, p, acc =>
    if pIsParam p then do
      let (n, p1) ← parseParam fuel p
      parseParamsAux fuel p1 (acc ++ [n])
    else retWithErr acc p

/-- `param : helperName | sexpr`. -/
def parseParam : Nat → PState → PRes (Node × PState)
  | 0, _ => .error fuelErr
  | fuel + 1, p => parseHelperNameOrSexpr fuel p

/-- `parseHelperNameOrSexpr`. -/
def parseHelperNameOrSexpr : Nat → PState → PRes (Node × PState)
  | 0, _ => .error fuelErr
  | fuel + 1, p =>
    if pIsSexpr p then parseSexpr fuel p
    else parseHelperName fuel p

/-- `sexpr : OPEN_SEXPR helperName param* hash? CLOSE_SEXPR`. -/
def parseSexpr : Nat → PState → PRes (Node × PState)
  | 0, _ => .error fuelErr
  | fuel + 1, p =>
    let (tok, p1) := pshift p
    if tok.kind ≠ .TokenOpenSexpr then
      .error (cs "Failed to parse SubExpression. Expected TokenOpenSexpr: " ++ tokStr tok)
    else do
      let (path, params, hn, p2) ← parseExpression fuel p1
      let (tok2, p3) := pshift p2
      if tok2.kind ≠ .TokenCloseSexpr then
        .error (cs "Failed to parse SubExpression. Expected TokenCloseSexpr: " ++ tokStr tok2)
      else retWithErr (Node.subExpr tok.pos path params hn) p3

/-- The `hashSegment+` loop of `parseHash`. -/
def parseHashAux : Nat → PState → List Node → PRes (List Node × PState)
  | 0, _, _ => .error fuelErr
  | fuel + 1, p, acc =>
    if pIsHashSegment p then do
      let (pair, p1) ← parseHashSegment fuel p
      parseHashAux fuel p1 (acc ++ [pair])
    else .ok (acc, p)

/-- `hash : hashSegment+`. -/
def parseHash : Nat → PState → PRes (Node × PState)
  | 0, _ => .error fuelErr
  | fuel + 1, p => do
    let (pairs, p1) ← parseHashAux fuel p []
    match pairs with
    | [] => .error (cs "Failed to parse Hash: " ++ tokStr (pnext p1))
    | pr :: _ => retWithErr (Node.hashNode (nodePos pr) pairs) p1

/-- `hashSegment : ID EQUALS param`. -/
def parseHashSegment : Nat → PState → PRes (Node × PState)
  | 0, _ => .error fuelErr
  | fuel + 1, p =>
    let (tokId, p1) := pshift p
    if tokId.kind ≠ .TokenID then
      .error (cs "Failed to parse Hash Segment. Expected an ID: " ++ tokStr tokId)
    else
      let (tokEq, p2) := pshift p1
      if tokEq.kind ≠ .TokenEquals then
        .error (cs "Failed to parse Hash Segment. Expected an EQUAL: " ++ tokStr tokEq)
      else do
        let (param, p3) ← parseParam fuel p2
        retWithErr (Node.hashPair tokId.pos tokId.val param) p3

end

/-- The fuel used to drive the (terminating) Go recursion for a token list. -/
def parseFuel (toks : List Token) : Nat := 16 * toks.length + 64

/-- `ParseProgram` run over a token stream, keeping the root node. -/
def parseTokens (ts : List Token) : PRes Node :=
  match parseProgramM (parseFuel ts) ⟨ts⟩ with
  | .ok (prog, _) => .ok prog
  | .error e => .error e

/-- `parser.Parse(input)`: tokenize then parse a program. -/
def Parse (input : List Char) : PRes Node := parseTokens (tokenize input)

/-- Does a parse result denote failure? -/
def isErr : PRes Node → Bool
  | .error _ => true
  | .ok _ => false

/-! ## Host data values

The evaluator accesses host data structurally (spec §6).  `HVal` covers the
value shapes the claims need: nil, booleans, integers, strings, slices and
string-keyed maps (a Go map is unordered; a `vmap` carries its entries in some
enumeration order). -/

inductive HVal where
  | vnil
  | vbool (b : Bool)
  | vint (i : Int)
  | vstr (s : List Char)
  | varr (xs : List HVal)
  | vmap (entries : List (List Char × HVal))

/-! ## Private data frames (src/data_frame.go)

Go frames are heap objects mutated in place, so they are embedded as a store
of frames addressed by index: `Copy` appends a fresh frame, `Set` mutates the
frame at an index.  A frame's `data` map is modelled extensionally as a lookup
function (Go map iteration order does not matter for copying a map). -/

structure DataFrame where
  parent : Option Nat
  data : List Char → Option HVal

structure DFStore where
  frames : List DataFrame

def emptyFrame : DataFrame := ⟨none, fun _ => none⟩

/-- The frame at an index (indices in use are always in range). -/
def dfGetFrame (s : DFStore) (i : Nat) : DataFrame := s.frames.getD i emptyFrame

/-- `NewDataFrame()`: allocate a fresh empty frame; returns its index. -/
def NewDataFrame (s : DFStore) : DFStore × Nat :=
  (⟨s.frames ++ [emptyFrame]⟩, s.frames.length)

/-- `p.Copy()`: a new frame holding a copy of `p`'s entries, with parent `p`. -/
def dfCopy (s : DFStore) (p : Nat) : DFStore × Nat :=
  (⟨s.frames ++ [⟨some p, (dfGetFrame s p).data⟩]⟩, s.frames.length)

/-- `p.Set(key, val)`: mutate the frame at index `i`. -/
def dfSet (s : DFStore) (i : Nat) (key : List Char) (v : HVal) : DFStore :=
  ⟨s.frames.set i
    { dfGetFrame s i with
      data := fun k => if k = key then some v else (dfGetFrame s i).data k }⟩

/-- `p.Get(key)` (via `Find` with a single part). -/
def dfGet (s : DFStore) (i : Nat) (key : List Char) : Option HVal :=
  (dfGetFrame s i).data key

/-- `p.NewIterDataFrame(length, i, key)`. -/
def NewIterDataFrame (s : DFStore) (p : Nat) (length i : Int) (key : HVal) :
    DFStore × Nat :=
  let (s1, r) := dfCopy s p
  let s2 := dfSet s1 r (cs "index") (.vint i)
  let s3 := dfSet s2 r (cs "key") key
  let s4 := dfSet s3 r (cs "first") (.vbool (i == 0))
  let s5 := dfSet s4 r (cs "last") (.vbool (i == length - 1))
  (s5, r)

/-! ## Helper registration and the `each` builtin (raymond package sources)

`RegisterHelper` panics (with a `fmt.Errorf` value) on a duplicate name; the
panic outcome is modelled as the error branch of an `Except`.  The registry is
generic in the helper type, mirroring `map[string]Helper`. -/

def RegisterHelper {H : Type} (helpers : List Char → Option H) (name : List Char) (h : H) :
    Except Err (List Char → Option H) :=
  match helpers name with
  | some _ => .error (cs "Helper already registered: " ++ name)
  | none => .ok (fun n => if n = name then some h else helpers n)

/-- `FindHelper`. -/
def FindHelper {H : Type} (helpers : List Char → Option H) (name : List Char) : Option H :=
  helpers name

/-- The builtin helpers registered by `init()`. -/
inductive BuiltinHelper where
  | ifH
  | unlessH
  | withH
  | eachH
deriving DecidableEq, Repr

/-- The registry produced by `init()`: if, unless, with, each. -/
def builtinHelpers : Except Err (List Char → Option BuiltinHelper) := do
  let r ← RegisterHelper (fun _ => none) (cs "if") .ifH
  let r ← RegisterHelper r (cs "unless") .unlessH
  let r ← RegisterHelper r (cs "with") .withH
  let r ← RegisterHelper r (cs "each") .eachH
  .ok r

/-- Modelled from the spec: `IsTruth` is not under `src/` (only its caller
`TruthFirstParam` is).  Spec §4.4: "Truthiness: `nil`/`false`/empty
string/empty sequence/empty map/numeric zero are falsy; everything else
truthy." -/
def IsTruth : HVal → Bool
  | .vnil => false
  | .vbool b => b
  | .vint i => !(i == 0)
  | .vstr s => !s.isEmpty
  | .varr xs => !xs.isEmpty
  | .vmap entries => !entries.isEmpty

/-- `p.TruthFirstParam()`: `nil` is false outright, otherwise `IsTruth`. -/
def TruthFirstParam (v : HVal) : Bool :=
  match v with
  | .vnil => false
  | w => IsTruth w

/-- The observable actions a helper performs through its `HelperParams`:
context pushes/pops, body/inverse evaluation, and private-data writes
(`DataFrame.Set` reached through the evaluator). -/
inductive HelperOp where
  | pushCtx (v : HVal)
  | popCtx
  | evalBlock
  | evalInverse
  | setData (key : List Char) (v : HVal)

/-- `p.EvaluateBlockWith(ctx)`: push the context, evaluate the block, pop. -/
def EvaluateBlockWith (v : HVal) : List HelperOp :=
  [.pushCtx v, .evalBlock, .popCtx]

/-- `eachHelper` (mustache_test.go snapshot): inverse on a falsy first param;
one `EvaluateBlockWith` per element of an array/slice; per *value* of a map
(the source notes "a go hash is not ordered, so result may vary" — the model
iterates the entries in their enumeration order); nothing for a struct
(`@todo` in the source) or any other kind. -/
def eachHelperTrace (v : HVal) : List HelperOp :=
  if !TruthFirstParam v then [.evalInverse]
  else
    match v with
    | .varr xs => xs.flatMap EvaluateBlockWith
    | .vmap entries => (entries.map Prod.snd).flatMap EvaluateBlockWith
    | _ => []

/-- Does a helper trace contain any private-data write? -/
def hasDataWrite : List HelperOp → Bool
  | [] => false
  | .setData _ _ :: _ => true
  | _ :: rest => hasDataWrite rest

/-! ## Result observers used by the statements below -/

/-- The key of a hash pair node. -/
def hashPairKey : Node → Option (List Char)
  | .hashPair _ k _ => some k
  | _ => none

/-- The hash keys (in order) of a successfully parsed single-mustache program. -/
def mustacheHashKeys : PRes Node → Option (List (List Char))
  | .ok (.program _ [.mustache _ _ _ (some (.hashNode _ pairs))] _) =>
    some (pairs.filterMap hashPairKey)
  | _ => none

/-- The path of a successfully parsed single-mustache program:
(data flag, depth, parts, original). -/
def mustachePathInfo : PRes Node → Option (Bool × Nat × List (List Char) × List Char)
  | .ok (.program _ [.mustache _ (.pathExpr _ d dep parts orig) _ _] _) =>
    some (d, dep, parts, orig)
  | _ => none

/-- The number-literal value of a successfully parsed single-mustache program. -/
def mustacheNumValue : PRes Node → Option Int
  | .ok (.program _ [.mustache _ (.numLit _ v _) _ _] _) => some v
  | _ => none

/-- The token kinds of a token stream. -/
def tokenKinds (ts : List Token) : List TokenKind := ts.map Token.kind

/-- The error message of a failed parse (`none` on success). -/
def parseErrMsg : PRes Node → Option (List Char)
  | .error e => some e
  | .ok _ => none

/-- A token encoding of `key=true` hash segments (used to state the general
hash-ordering theorem): each key contributes `ID key`, `=`, `true`. -/
def hashSegTokens : List (List Char) → List Token
  | [] => []
  | k :: rest =>
    ⟨.TokenID, 0, k⟩ :: ⟨.TokenEquals, 0, cs "="⟩ :: ⟨.TokenBoolean, 0, cs "true"⟩ ::
      hashSegTokens rest

/-- The structure of a parsed block statement: open-tag path original, body
statement count, and whether an inverse chain is attached. -/
def blockInfo : PRes Node → Option (List Char × Nat × Bool)
  | .ok (.program _ [.blockStmt _ (.pathExpr _ _ _ _ orig) _ _ progOpt inv] _) =>
    some (orig, (match progOpt with
                 | some (.program _ body _) => body.length
                 | _ => 0), inv.isSome)
  | _ => none


/-! ## Lexer invariants used by the token-order development (C8) -/
def InvL (l : LexState) : Prop := l.start ≤ l.pos ∧ l.width ≤ 1

def stepOK (l : LexState) (so : StepOut) : Prop :=
  List.Chain' (fun t u => t.pos ≤ u.pos) so.toks ∧
  (∀ t ∈ so.toks, l.start ≤ t.pos) ∧
  (∀ t ∈ so.toks.dropLast, t.kind ≠ .TokenError) ∧
  (match so.next with
   | some (_, l2) => InvL l2 ∧ l.start ≤ l2.start ∧ (∀ t ∈ so.toks, t.pos ≤ l2.start) ∧
       (∀ t ∈ so.toks, t.kind ≠ .TokenError)
   | none => True)

/-!
# Theorems
-/

/-! ### List helper lemmas -/

theorem listGetDAppendLeft {α : Type} (as bs : List α) (d : α) (j : Nat)
    (h : j < as.length) : (as ++ bs).getD j d = as.getD j d := by
  induction as generalizing j with
  | nil => simp at h
  | cons a as ih =>
    cases j with
    | zero => rfl
    | succ j => simpa using ih j (by simpa using h)

theorem listGetDAppendLen {α : Type} (as : List α) (b : α) (d : α) :
    (as ++ [b]).getD as.length d = b := by
  induction as with
  | nil => rfl
  | cons a as ih => simp only [List.cons_append, List.length_cons, List.getD_cons_succ, ih]

theorem listSetAppendLen {α : Type} (as : List α) (b c : α) :
    (as ++ [b]).set as.length c = as ++ [c] := by
  induction as with
  | nil => rfl
  | cons a as ih => simp [ih]

/-- Staging lemma: once the token stream of an input is known, `Parse` is the
parser run on that stream (used to keep the two pipeline stages separately
computable in the proofs below). -/
theorem Parse_eq (input : List Char) (ts : List Token) (h : tokenize input = ts) :
    Parse input = parseTokens ts := by
  unfold Parse
  rw [h]

/-! ### Symbolic-execution lemmas for the parser

Each lemma mirrors one parser production on a token stream of known shape but
with symbolic token values; the fuel is kept symbolic so the equations unfold
exactly once. -/

theorem pathPart_new (pos : Nat) (data : Bool) (a : List Char) :
    ∃ dep parts, pathPart (newPathExpr pos data) a = .pathExpr pos data dep parts a := by
  by_cases h1 : a = cs ".."
  · exact ⟨1, [], by subst h1; rfl⟩
  · by_cases h2 : a = cs "."
    · exact ⟨0, [], by subst h2; rfl⟩
    · by_cases h3 : a = cs "this"
      · exact ⟨0, [], by subst h3; rfl⟩
      · exact ⟨0, [a], by simp [pathPart, newPathExpr, h1, h2, h3]⟩

theorem exceptBindOk {α β : Type} (a : α) (f : α → PRes β) :
    (Except.ok a >>= f) = f a := rfl

theorem exceptBindErr {α β : Type} (e : Err) (f : α → PRes β) :
    ((Except.error e : PRes α) >>= f) = (.error e : PRes β) := rfl

theorem parsePathSegs_stop (n : Nat) (acc : Node) (p : PState)
    (h1 : pIsPathSep p = false) (h2 : perrOpt p = none) :
    parsePathSegs (n + 1) acc p = .ok (acc, p) := by
  simp [parsePathSegs, h1, retWithErr, h2, exceptBindOk, exceptBindErr]

theorem parseHelperName_id (n : Nat) (pos : Nat) (a : List Char) (rest : List Token)
    (h1 : pIsPathSep ⟨rest⟩ = false) (h2 : perrOpt ⟨rest⟩ = none) :
    parseHelperName (n + 1) ⟨⟨.TokenID, pos, a⟩ :: rest⟩ =
      .ok (pathPart (newPathExpr pos false) a, (⟨rest⟩ : PState)) := by
  simp [parseHelperName, parsePath, pnext, pshift, parsePathSegs_stop, h1, h2, retWithErr,
    exceptBindOk, exceptBindErr]

theorem parseExprParamsHash_stop (n : Nat) (p : PState)
    (h1 : pIsParam p = false) (h2 : pIsHashSegment p = false) :
    parseExprParamsHash (n + 1) p = .ok ([], none, p) := by
  simp [parseExprParamsHash, h1, h2, exceptBindOk, exceptBindErr]

theorem parseExpression_id (n : Nat) (pos : Nat) (a : List Char) (rest : List Token)
    (h1 : pIsPathSep ⟨rest⟩ = false) (h2 : perrOpt ⟨rest⟩ = none)
    (h3 : pIsParam ⟨rest⟩ = false) (h4 : pIsHashSegment ⟨rest⟩ = false) :
    parseExpression (n + 2) ⟨⟨.TokenID, pos, a⟩ :: rest⟩ =
      .ok (pathPart (newPathExpr pos false) a, [], none, (⟨rest⟩ : PState)) := by
  simp [parseExpression, parseHelperName_id, parseExprParamsHash_stop, h1, h2, h3, h4,
    exceptBindOk, exceptBindErr]

theorem parseOpenBlock_plain (n : Nat) (tok0 : Token) (pos1 : Nat) (a : List Char)
    (tok2 : Token) (rest : List Token) (hk2 : tok2.kind = .TokenClose) :
    parseOpenBlock (n + 3) ⟨tok0 :: ⟨.TokenID, pos1, a⟩ :: tok2 :: rest⟩ =
      .ok ((tok0.pos, pathPart (newPathExpr pos1 false) a, [], none), [], false,
           (⟨rest⟩ : PState)) := by
  simp [parseOpenBlock, parseExpression_id, pshift, pnext, pnextAt, phave, pIsPathSep,
    pIsParam, pIsSexpr, pIsHelperName, pIsHashSegment, pIsBlockParams, pIsToken, perrOpt, hk2,
    exceptBindOk, exceptBindErr]

theorem parseProgramM_stop (n : Nat) (p : PState)
    (h1 : pIsStatement p = false) (h2 : perrOpt p = none) :
    parseProgramM (n + 2) p = .ok (.program (pnext p).pos [] [], p) := by
  simp [parseProgramM, parseProgramAux, h1, retWithErr, h2, exceptBindOk, exceptBindErr]

theorem parseBlock_name_mismatch (n : Nat) (tok0 : Token) (pos1 : Nat) (a : List Char)
    (tok2 tok3 : Token) (pos4 : Nat) (b : List Char) (tok5 tok6 : Token)
    (hk2 : tok2.kind = .TokenClose) (hk3 : tok3.kind = .TokenOpenEndBlock)
    (hk5 : tok5.kind = .TokenClose) (hab : a ≠ b) :
    parseBlock (n + 4)
        ⟨[tok0, ⟨.TokenID, pos1, a⟩, tok2, tok3, ⟨.TokenID, pos4, b⟩, tok5, tok6]⟩ =
      .error (a ++ cs " Open and end blocks names mismatch: " ++ b ++ cs " != %!s(MISSING)") := by
  obtain ⟨d1, pa, hA⟩ := pathPart_new pos1 false a
  obtain ⟨d2, pb, hB⟩ := pathPart_new pos4 false b
  simp [parseBlock, parseOpenBlock_plain, parseProgramM_stop, parseHelperName_id, hA, hB,
    hk2, hk3, hk5, hab, setProgBlockParams, pshift, pnext, pnextAt, phave, pIsStatement,
    perrOpt, pIsPathSep, pIsToken, pIsInverse, pIsInverseChain, retWithErr,
    exceptBindOk, exceptBindErr]

theorem parseRawBlock_name_mismatch (n : Nat) (tok0 : Token) (pos1 : Nat) (a : List Char)
    (tok2 tok3 tok4 : Token) (pos5 : Nat) (b : List Char) (tok6 tok7 : Token)
    (hk2 : tok2.kind = .TokenCloseRawBlock) (hk3 : tok3.kind = .TokenContent)
    (hk4 : tok4.kind = .TokenOpenEndRawBlock) (hk6 : tok6.kind = .TokenCloseRawBlock)
    (hab : a ≠ b) :
    parseRawBlock (n + 3)
        ⟨[tok0, ⟨.TokenID, pos1, a⟩, tok2, tok3, tok4, ⟨.TokenID, pos5, b⟩, tok6, tok7]⟩ =
      .error (a ++ cs " Open and end blocks names mismatch: " ++ b ++ cs " != %!s(MISSING)") := by
  obtain ⟨d1, pa, hA⟩ := pathPart_new pos1 false a
  obtain ⟨d2, pb, hB⟩ := pathPart_new pos5 false b
  simp [parseRawBlock, parseExpression_id, parseContent, parseHelperName_id, hA, hB,
    hk2, hk3, hk4, hk6, hab, pshift, pnext, pnextAt, phave, perrOpt, pIsPathSep, pIsParam,
    pIsSexpr, pIsHelperName, pIsHashSegment, pIsToken, exceptBindOk, exceptBindErr]

theorem parseStatement_err_block (n : Nat) (p : PState) (e : Err)
    (hk : (pnext p).kind = .TokenOpenBlock) (h : parseBlock n p = .error e) :
    parseStatement (n + 1) p = .error e := by
  simp [parseStatement, hk, h, exceptBindErr]

theorem parseStatement_err_rawblock (n : Nat) (p : PState) (e : Err)
    (hk : (pnext p).kind = .TokenOpenRawBlock) (h : parseRawBlock n p = .error e) :
    parseStatement (n + 1) p = .error e := by
  simp [parseStatement, hk, h, exceptBindErr]

theorem parseProgramAux_err (n : Nat) (p : PState) (acc : List Node) (e : Err)
    (h1 : pIsStatement p = true) (h2 : parseStatement n p = .error e) :
    parseProgramAux (n + 1) p acc = .error e := by
  simp [parseProgramAux, h1, h2, exceptBindErr]

theorem parseProgramM_err (n : Nat) (p : PState) (e : Err)
    (h : parseProgramAux n p [] = .error e) :
    parseProgramM (n + 1) p = .error e := by
  simp [parseProgramM, h, exceptBindErr]

/-! ### C2 — open/close block-name matching (spec §3, §8) -/

/-- C2: for every block — regular or raw — whose close-tag name differs
textually from its open-tag name, the parse fails (with the mismatch error of
parser.go lines 343-345 resp. 234-236, whose `Sprintf` is missing its first
argument, hence the `%!s(MISSING)` artifact) and no `Program` is produced; in
particular `parse("{{#foo}}{{/bar}}")` returns the error.  The first two
conjuncts are general over the open name `a`, close name `b` and raw-block
content `c`. -/
theorem c2_block_name_mismatch_fails (a b c : List Char) (hab : a ≠ b) :
    parseTokens
        [⟨.TokenOpenBlock, 0, cs "\x7b\x7b#"⟩, ⟨.TokenID, 3, a⟩, ⟨.TokenClose, 6, cs "\x7d\x7d"⟩,
         ⟨.TokenOpenEndBlock, 8, cs "\x7b\x7b/"⟩, ⟨.TokenID, 11, b⟩,
         ⟨.TokenClose, 14, cs "\x7d\x7d"⟩, ⟨.TokenEOF, 16, cs ""⟩] =
      .error (a ++ cs " Open and end blocks names mismatch: " ++ b ++ cs " != %!s(MISSING)") ∧
    parseTokens
        [⟨.TokenOpenRawBlock, 0, cs "\x7b\x7b\x7b\x7b"⟩, ⟨.TokenID, 4, a⟩,
         ⟨.TokenCloseRawBlock, 7, cs "\x7d\x7d\x7d\x7d"⟩, ⟨.TokenContent, 11, c⟩,
         ⟨.TokenOpenEndRawBlock, 14, cs "\x7b\x7b\x7b\x7b/"⟩, ⟨.TokenID, 19, b⟩,
         ⟨.TokenCloseRawBlock, 22, cs "\x7d\x7d\x7d\x7d"⟩, ⟨.TokenEOF, 26, cs ""⟩] =
      .error (a ++ cs " Open and end blocks names mismatch: " ++ b ++ cs " != %!s(MISSING)") ∧
    parseErrMsg (Parse (cs "\x7b\x7b#foo\x7d\x7d\x7b\x7b/bar\x7d\x7d")) =
      some (cs "foo Open and end blocks names mismatch: bar != %!s(MISSING)") := by
  refine ⟨?_, ?_, ?_⟩
  · have h1 : parseBlock (169 + 4)
        ⟨[⟨.TokenOpenBlock, 0, cs "\x7b\x7b#"⟩, ⟨.TokenID, 3, a⟩, ⟨.TokenClose, 6, cs "\x7d\x7d"⟩,
          ⟨.TokenOpenEndBlock, 8, cs "\x7b\x7b/"⟩, ⟨.TokenID, 11, b⟩,
          ⟨.TokenClose, 14, cs "\x7d\x7d"⟩, ⟨.TokenEOF, 16, cs ""⟩]⟩ =
        .error (a ++ cs " Open and end blocks names mismatch: " ++ b ++ cs " != %!s(MISSING)") :=
      parseBlock_name_mismatch 169 _ 3 a _ _ 11 b _ _ (by rfl) (by rfl) (by rfl) hab
    have h2 := parseStatement_err_block 173 _ _ (by rfl) h1
    have h3 := parseProgramAux_err 174 _ [] _ (by rfl) h2
    have h4 := parseProgramM_err 175 _ _ h3
    simp only [parseTokens]
    rw [show parseFuel
        [⟨.TokenOpenBlock, 0, cs "\x7b\x7b#"⟩, ⟨.TokenID, 3, a⟩, ⟨.TokenClose, 6, cs "\x7d\x7d"⟩,
         ⟨.TokenOpenEndBlock, 8, cs "\x7b\x7b/"⟩, ⟨.TokenID, 11, b⟩,
         ⟨.TokenClose, 14, cs "\x7d\x7d"⟩, ⟨.TokenEOF, 16, cs ""⟩] = 175 + 1 from rfl]
    rw [h4]
  · have h1 : parseRawBlock (186 + 3)
        ⟨[⟨.TokenOpenRawBlock, 0, cs "\x7b\x7b\x7b\x7b"⟩, ⟨.TokenID, 4, a⟩,
          ⟨.TokenCloseRawBlock, 7, cs "\x7d\x7d\x7d\x7d"⟩, ⟨.TokenContent, 11, c⟩,
          ⟨.TokenOpenEndRawBlock, 14, cs "\x7b\x7b\x7b\x7b/"⟩, ⟨.TokenID, 19, b⟩,
          ⟨.TokenCloseRawBlock, 22, cs "\x7d\x7d\x7d\x7d"⟩, ⟨.TokenEOF, 26, cs ""⟩]⟩ =
        .error (a ++ cs " Open and end blocks names mismatch: " ++ b ++ cs " != %!s(MISSING)") :=
      parseRawBlock_name_mismatch 186 _ 4 a _ _ _ 19 b _ _ (by rfl) (by rfl) (by rfl) (by rfl) hab
    have h2 := parseStatement_err_rawblock 189 _ _ (by rfl) h1
    have h3 := parseProgramAux_err 190 _ [] _ (by rfl) h2
    have h4 := parseProgramM_err 191 _ _ h3
    simp only [parseTokens]
    rw [show parseFuel
        [⟨.TokenOpenRawBlock, 0, cs "\x7b\x7b\x7b\x7b"⟩, ⟨.TokenID, 4, a⟩,
         ⟨.TokenCloseRawBlock, 7, cs "\x7d\x7d\x7d\x7d"⟩, ⟨.TokenContent, 11, c⟩,
         ⟨.TokenOpenEndRawBlock, 14, cs "\x7b\x7b\x7b\x7b/"⟩, ⟨.TokenID, 19, b⟩,
         ⟨.TokenCloseRawBlock, 22, cs "\x7d\x7d\x7d\x7d"⟩, ⟨.TokenEOF, 26, cs ""⟩] = 191 + 1 from rfl]
    rw [h4]
  · rw [Parse_eq (cs "\x7b\x7b#foo\x7d\x7d\x7b\x7b/bar\x7d\x7d")
      [⟨.TokenOpenBlock, 0, cs "\x7b\x7b#"⟩, ⟨.TokenID, 3, cs "foo"⟩,
       ⟨.TokenClose, 6, cs "\x7d\x7d"⟩, ⟨.TokenOpenEndBlock, 8, cs "\x7b\x7b/"⟩,
       ⟨.TokenID, 11, cs "bar"⟩, ⟨.TokenClose, 14, cs "\x7d\x7d"⟩, ⟨.TokenEOF, 16, cs ""⟩]
      (by decide)]
    decide

/-- C2 witness: the theorem applied at the names `foo`/`bar` (hypothesis
`foo ≠ bar` discharged concretely). -/
theorem c2_block_name_mismatch_fails_witness :
    (cs "foo" ≠ cs "bar") ∧
    parseTokens
        [⟨.TokenOpenBlock, 0, cs "\x7b\x7b#"⟩, ⟨.TokenID, 3, cs "foo"⟩,
         ⟨.TokenClose, 6, cs "\x7d\x7d"⟩, ⟨.TokenOpenEndBlock, 8, cs "\x7b\x7b/"⟩,
         ⟨.TokenID, 11, cs "bar"⟩, ⟨.TokenClose, 14, cs "\x7d\x7d"⟩, ⟨.TokenEOF, 16, cs ""⟩] =
      .error (cs "foo" ++ cs " Open and end blocks names mismatch: " ++ cs "bar" ++
        cs " != %!s(MISSING)") :=
  ⟨by decide,
   (c2_block_name_mismatch_fails (cs "foo") (cs "bar") (cs "x") (by decide)).1⟩

/-! ### C1 — block parsing (spec §4.2 "Block: open tag → body program →
else/inverse sections → mandatory close tag") -/

/-- C1: the spec says every well-formed `{{#name}} body {{/name}}` block
(optionally with else/inverse sections) parses into a `BlockStatement`.
In this snapshot `parseBlock` checks the CLOSE token of the end tag against
`TokenCloseRawBlock` (parser.go lines 348-351) although `{{/name}}` closes
with `TokenClose`, so even `{{#foo}}{{/foo}}` — the "parses empty blocks"
case of parser_test.go — fails to parse; and the inverse/inverse-chain
branches are empty `@todo`s (parser.go lines 309-319), so the else-section
form `{{#foo}} bar {{^}} baz {{/foo}}` of parser_test.go line 73 fails at the
`{{^}}` tag.  This theorem evaluates the parser at both failing inputs. -/
theorem c1_block_close_checked_against_raw_close :
    parseErrMsg (Parse (cs "\x7b\x7b#foo\x7d\x7d\x7b\x7b/foo\x7d\x7d")) =
      some (errExpectMsg (cs "Failed to parse block.") .TokenCloseRawBlock
        ⟨.TokenClose, 14, cs "\x7d\x7d"⟩) ∧
    parseErrMsg (Parse (cs "\x7b\x7b#foo\x7d\x7d bar \x7b\x7b^\x7d\x7d baz \x7b\x7b/foo\x7d\x7d")) =
      some (errExpectMsg (cs "Failed to parse block.") .TokenOpenEndBlock
        ⟨.TokenInverse, 13, cs "\x7b\x7b^\x7d\x7d"⟩) := by
  constructor
  · rw [Parse_eq (cs "\x7b\x7b#foo\x7d\x7d\x7b\x7b/foo\x7d\x7d")
      [⟨.TokenOpenBlock, 0, cs "\x7b\x7b#"⟩, ⟨.TokenID, 3, cs "foo"⟩, ⟨.TokenClose, 6, cs "\x7d\x7d"⟩,
       ⟨.TokenOpenEndBlock, 8, cs "\x7b\x7b/"⟩, ⟨.TokenID, 11, cs "foo"⟩, ⟨.TokenClose, 14, cs "\x7d\x7d"⟩,
       ⟨.TokenEOF, 16, cs ""⟩] (by decide)]
    decide
  · rw [Parse_eq (cs "\x7b\x7b#foo\x7d\x7d bar \x7b\x7b^\x7d\x7d baz \x7b\x7b/foo\x7d\x7d")
      [⟨.TokenOpenBlock, 0, cs "\x7b\x7b#"⟩, ⟨.TokenID, 3, cs "foo"⟩, ⟨.TokenClose, 6, cs "\x7d\x7d"⟩,
       ⟨.TokenContent, 8, cs " bar "⟩, ⟨.TokenInverse, 13, cs "\x7b\x7b^\x7d\x7d"⟩,
       ⟨.TokenContent, 18, cs " baz "⟩, ⟨.TokenOpenEndBlock, 23, cs "\x7b\x7b/"⟩,
       ⟨.TokenID, 26, cs "foo"⟩, ⟨.TokenClose, 29, cs "\x7d\x7d"⟩, ⟨.TokenEOF, 31, cs ""⟩]
      (by decide)]
    decide

/-! ### C4 — path parse rule (spec §4.2) -/

/-- C4: the spec says each leading `../` increments the path depth, bare
`this`/`.` is the identity path, a leading `this/` prefix is stripped, and
parsing such paths does not fail.  In this snapshot `lexExpression` emits
every `.` as `TokenSep` (lexer.go line 395; the lexer never produces the `..`
or `.` ID tokens its own rule comments mark as implemented), so `parsePath`
immediately fails on `{{../foo}}` and on the `{{@../foo}}` case that
parser_test.go line 36 expects to parse.  `{{this/foo}}` and `{{this}}`, which
are lexable, do follow the stripping rule (via the spec-modelled
`pathPart`). -/
theorem c4_dotdot_paths_fail_to_lex :
    parseErrMsg (Parse (cs "{{@../foo}}")) =
      some (cs "Failed to parse path, expecting ID: " ++ tokStr ⟨.TokenSep, 3, cs "."⟩) ∧
    parseErrMsg (Parse (cs "{{../foo}}")) =
      some (cs "Failed to parse path, expecting ID: " ++ tokStr ⟨.TokenSep, 2, cs "."⟩) ∧
    mustachePathInfo (Parse (cs "{{this/foo}}")) = some (false, 0, [cs "foo"], cs "this/foo") ∧
    mustachePathInfo (Parse (cs "{{this}}")) = some (false, 0, [], cs "this") := by
  refine ⟨?_, ?_, ?_, ?_⟩
  · rw [Parse_eq (cs "{{@../foo}}")
      [⟨.TokenOpen, 0, cs "\x7b\x7b"⟩, ⟨.TokenData, 2, cs "@"⟩, ⟨.TokenSep, 3, cs "."⟩,
       ⟨.TokenSep, 4, cs "."⟩, ⟨.TokenSep, 5, cs "/"⟩, ⟨.TokenID, 6, cs "foo"⟩,
       ⟨.TokenClose, 9, cs "\x7d\x7d"⟩, ⟨.TokenEOF, 11, cs ""⟩] (by decide)]
    decide
  · rw [Parse_eq (cs "{{../foo}}")
      [⟨.TokenOpen, 0, cs "\x7b\x7b"⟩, ⟨.TokenSep, 2, cs "."⟩, ⟨.TokenSep, 3, cs "."⟩,
       ⟨.TokenSep, 4, cs "/"⟩, ⟨.TokenID, 5, cs "foo"⟩,
       ⟨.TokenClose, 8, cs "\x7d\x7d"⟩, ⟨.TokenEOF, 10, cs ""⟩] (by decide)]
    decide
  · rw [Parse_eq (cs "{{this/foo}}")
      [⟨.TokenOpen, 0, cs "\x7b\x7b"⟩, ⟨.TokenID, 2, cs "this"⟩, ⟨.TokenSep, 6, cs "/"⟩,
       ⟨.TokenID, 7, cs "foo"⟩, ⟨.TokenClose, 10, cs "\x7d\x7d"⟩, ⟨.TokenEOF, 12, cs ""⟩]
      (by decide)]
    decide
  · rw [Parse_eq (cs "{{this}}")
      [⟨.TokenOpen, 0, cs "\x7b\x7b"⟩, ⟨.TokenID, 2, cs "this"⟩, ⟨.TokenClose, 6, cs "\x7d\x7d"⟩,
       ⟨.TokenEOF, 8, cs ""⟩] (by decide)]
    decide

/-! ### C5 — number literals (spec §4.1) -/

/-- C5 counterexample: the claim says every number literal in the stated
lexical forms (including decimals) is parsed into a `NumberLiteral` carrying
its numeric value; but `parseHelperName` converts the token with
`strconv.Atoi` (parser.go line 582), which only accepts optionally-signed
decimal integers, so `{{1.5}}` lexes to a number token and then fails to
parse. -/
theorem c5_decimal_number_counterexample :
    tokenize (cs "{{1.5}}") =
      [⟨.TokenOpen, 0, cs "\x7b\x7b"⟩, ⟨.TokenNumber, 2, cs "1.5"⟩,
       ⟨.TokenClose, 5, cs "\x7d\x7d"⟩, ⟨.TokenEOF, 7, []⟩] ∧
    parseErrMsg (Parse (cs "{{1.5}}")) =
      some (cs "strconv.Atoi: parsing: invalid syntax") := by
  constructor
  · decide
  · rw [Parse_eq (cs "{{1.5}}")
      [⟨.TokenOpen, 0, cs "\x7b\x7b"⟩, ⟨.TokenNumber, 2, cs "1.5"⟩,
       ⟨.TokenClose, 5, cs "\x7d\x7d"⟩, ⟨.TokenEOF, 7, cs ""⟩] (by decide)]
    decide

/-- C5 (amended): integer-form number literals (optionally signed) are lexed
as number tokens and parsed into `NumberLiteral` nodes carrying their numeric
value; decimal/exponent/hex forms are lexed as number tokens but the parse
then fails in `strconv.Atoi`; and a number followed by an alphanumeric
character is a lexing error (terminal `bad number syntax` token), not a
number token. -/
theorem c5_number_literal_amended :
    mustacheNumValue (Parse (cs "{{123}}")) = some 123 ∧
    mustacheNumValue (Parse (cs "{{-42}}")) = some (-42) ∧
    mustacheNumValue (Parse (cs "{{+7}}")) = some 7 ∧
    (tokenKinds (tokenize (cs "{{0x1A}}")) =
        [.TokenOpen, .TokenNumber, .TokenClose, .TokenEOF] ∧
      isErr (Parse (cs "{{0x1A}}")) = true) ∧
    (tokenKinds (tokenize (cs "{{-2e3}}")) =
        [.TokenOpen, .TokenNumber, .TokenClose, .TokenEOF] ∧
      isErr (Parse (cs "{{-2e3}}")) = true) ∧
    tokenize (cs "{{123a}}") =
      [⟨.TokenOpen, 0, cs "\x7b\x7b"⟩, ⟨.TokenError, 2, cs "bad number syntax: 123a"⟩] := by
  refine ⟨?_, ?_, ?_, ⟨?_, ?_⟩, ⟨?_, ?_⟩, ?_⟩
  · rw [Parse_eq (cs "{{123}}")
      [⟨.TokenOpen, 0, cs "\x7b\x7b"⟩, ⟨.TokenNumber, 2, cs "123"⟩,
       ⟨.TokenClose, 5, cs "\x7d\x7d"⟩, ⟨.TokenEOF, 7, cs ""⟩] (by decide)]
    decide
  · rw [Parse_eq (cs "{{-42}}")
      [⟨.TokenOpen, 0, cs "\x7b\x7b"⟩, ⟨.TokenNumber, 2, cs "-42"⟩,
       ⟨.TokenClose, 5, cs "\x7d\x7d"⟩, ⟨.TokenEOF, 7, cs ""⟩] (by decide)]
    decide
  · rw [Parse_eq (cs "{{+7}}")
      [⟨.TokenOpen, 0, cs "\x7b\x7b"⟩, ⟨.TokenNumber, 2, cs "+7"⟩,
       ⟨.TokenClose, 4, cs "\x7d\x7d"⟩, ⟨.TokenEOF, 6, cs ""⟩] (by decide)]
    decide
  · decide
  · rw [Parse_eq (cs "{{0x1A}}")
      [⟨.TokenOpen, 0, cs "\x7b\x7b"⟩, ⟨.TokenNumber, 2, cs "0x1A"⟩,
       ⟨.TokenClose, 6, cs "\x7d\x7d"⟩, ⟨.TokenEOF, 8, cs ""⟩] (by decide)]
    decide
  · decide
  · rw [Parse_eq (cs "{{-2e3}}")
      [⟨.TokenOpen, 0, cs "\x7b\x7b"⟩, ⟨.TokenNumber, 2, cs "-2e3"⟩,
       ⟨.TokenClose, 6, cs "\x7d\x7d"⟩, ⟨.TokenEOF, 8, cs ""⟩] (by decide)]
    decide
  · decide

/-! ### C6 — hash keys (spec §3 "HashNode (ordered key→expression pairs, keys
unique)") -/

theorem parseHashAux_stop (n : Nat) (p : PState) (acc : List Node)
    (h : pIsHashSegment p = false) :
    parseHashAux (n + 1) p acc = .ok (acc, p) := by
  simp [parseHashAux, h]

theorem parseHashSegment_bool (n : Nat) (posK : Nat) (k : List Char) (tokEq tokB : Token)
    (rest : List Token)
    (hkEq : tokEq.kind = .TokenEquals) (hkB : tokB.kind = .TokenBoolean)
    (hvB : tokB.val = cs "true") (hrest : perrOpt ⟨rest⟩ = none) :
    parseHashSegment (n + 3) ⟨⟨.TokenID, posK, k⟩ :: tokEq :: tokB :: rest⟩ =
      .ok (Node.hashPair posK k (Node.boolLit tokB.pos true (cs "true")), (⟨rest⟩ : PState)) := by
  simp [parseHashSegment, parseParam, parseHelperNameOrSexpr, parseHelperName, pshift, pnext,
    pIsSexpr, pIsToken, phave, hkEq, hkB, hvB, retWithErr, hrest, exceptBindOk, exceptBindErr]

theorem parseHashAux_step (n : Nat) (p p1 : PState) (pair : Node) (acc : List Node)
    (h : pIsHashSegment p = true) (hseg : parseHashSegment n p = .ok (pair, p1)) :
    parseHashAux (n + 1) p acc = parseHashAux n p1 (acc ++ [pair]) := by
  simp [parseHashAux, h, hseg, exceptBindOk]

theorem perrOpt_hashSegTokens (rest : List (List Char)) (tail : List Token)
    (htail : perrOpt ⟨tail⟩ = none) :
    perrOpt ⟨hashSegTokens rest ++ tail⟩ = none := by
  cases rest with
  | nil => simpa [hashSegTokens] using htail
  | cons k t => simp [hashSegTokens, perrOpt, pnext]

theorem parseHashAux_encoded (ks : List (List Char)) :
    ∀ fuel acc, 8 * ks.length + 1 ≤ fuel →
      parseHashAux fuel
          ⟨hashSegTokens ks ++ [⟨.TokenClose, 0, cs "\x7d\x7d"⟩, ⟨.TokenEOF, 0, cs ""⟩]⟩ acc =
        .ok (acc ++ ks.map (fun k => Node.hashPair 0 k (Node.boolLit 0 true (cs "true"))),
             (⟨[⟨.TokenClose, 0, cs "\x7d\x7d"⟩, ⟨.TokenEOF, 0, cs ""⟩]⟩ : PState)) := by
  induction ks with
  | nil =>
    intro fuel acc hf
    obtain ⟨m, rfl⟩ : ∃ m, fuel = m + 1 := ⟨fuel - 1, by omega⟩
    simp only [hashSegTokens, List.nil_append, List.map_nil, List.append_nil]
    exact parseHashAux_stop m _ acc (by rfl)
  | cons k rest ih =>
    intro fuel acc hf
    obtain ⟨m, rfl⟩ : ∃ m, fuel = m + 4 := ⟨fuel - 4, by simp at hf; omega⟩
    have hne : perrOpt
        ⟨hashSegTokens rest ++ [⟨.TokenClose, 0, cs "\x7d\x7d"⟩, ⟨.TokenEOF, 0, cs ""⟩]⟩ =
        none :=
      perrOpt_hashSegTokens rest _ (by rfl)
    have hseg := parseHashSegment_bool m 0 k ⟨.TokenEquals, 0, cs "="⟩
      ⟨.TokenBoolean, 0, cs "true"⟩
      (hashSegTokens rest ++ [⟨.TokenClose, 0, cs "\x7d\x7d"⟩, ⟨.TokenEOF, 0, cs ""⟩])
      rfl rfl rfl hne
    have hstep := parseHashAux_step (m + 3) _ _ _ acc
      (by simp [pIsHashSegment, phave, pnext, pnextAt, hashSegTokens]) hseg
    simp only [hashSegTokens, List.cons_append] at hstep ⊢
    rw [hstep, ih (m + 3) (acc ++ [Node.hashPair 0 k (Node.boolLit 0 true (cs "true"))])
      (by simp at hf ⊢; omega)]
    simp

/-- C6 (amended): the pairs of a parsed `HashNode` are kept in source order
and keys are not deduplicated — for every list of keys `ks` (duplicates
allowed), parsing the hash segment stream `k₁=true k₂=true …` yields a
`HashNode` whose pairs carry exactly `ks`, in order. -/
theorem c6_hash_pairs_in_source_order (ks : List (List Char)) (hks : ks ≠ [])
    (fuel : Nat) (hf : 8 * ks.length + 2 ≤ fuel) :
    parseHash fuel
        ⟨hashSegTokens ks ++ [⟨.TokenClose, 0, cs "\x7d\x7d"⟩, ⟨.TokenEOF, 0, cs ""⟩]⟩ =
      .ok (Node.hashNode 0
             (ks.map (fun k => Node.hashPair 0 k (Node.boolLit 0 true (cs "true")))),
           (⟨[⟨.TokenClose, 0, cs "\x7d\x7d"⟩, ⟨.TokenEOF, 0, cs ""⟩]⟩ : PState)) := by
  obtain ⟨m, rfl⟩ : ∃ m, fuel = m + 1 := ⟨fuel - 1, by omega⟩
  have henc := parseHashAux_encoded ks m [] (by omega)
  cases ks with
  | nil => exact absurd rfl hks
  | cons k rest =>
    simp only [parseHash]
    rw [henc]
    simp [retWithErr, perrOpt, pnext, nodePos, exceptBindOk]

/-- C6 general-theorem witness: applied at the key list `[a, b, a]` (with its
duplicate key), all hypotheses discharged concretely. -/
theorem c6_hash_pairs_in_source_order_witness :
    ([cs "a", cs "b", cs "a"] ≠ ([] : List (List Char))) ∧
    parseHash 64
        ⟨hashSegTokens [cs "a", cs "b", cs "a"] ++
          [⟨.TokenClose, 0, cs "\x7d\x7d"⟩, ⟨.TokenEOF, 0, cs ""⟩]⟩ =
      .ok (Node.hashNode 0
             [Node.hashPair 0 (cs "a") (Node.boolLit 0 true (cs "true")),
              Node.hashPair 0 (cs "b") (Node.boolLit 0 true (cs "true")),
              Node.hashPair 0 (cs "a") (Node.boolLit 0 true (cs "true"))],
           (⟨[⟨.TokenClose, 0, cs "\x7d\x7d"⟩, ⟨.TokenEOF, 0, cs ""⟩]⟩ : PState)) :=
  ⟨by simp,
   c6_hash_pairs_in_source_order [cs "a", cs "b", cs "a"] (by simp) 64 (by simp)⟩

/-- C6 counterexample: the claim says the keys of every parsed `HashNode` are
pairwise distinct; but `parseHash`/`parseHashSegment` (parser.go lines
482-536) never compare keys, so `{{foo a=1 a=2}}` parses successfully into a
hash whose key list is `[a, a]`. -/
theorem c6_duplicate_hash_keys_counterexample :
    mustacheHashKeys (Parse (cs "{{foo a=1 a=2}}")) = some [cs "a", cs "a"] ∧
    ¬ List.Pairwise (fun x y => x ≠ y) [cs "a", cs "a"] := by
  constructor
  · rw [Parse_eq (cs "{{foo a=1 a=2}}")
      [⟨.TokenOpen, 0, cs "\x7b\x7b"⟩, ⟨.TokenID, 2, cs "foo"⟩, ⟨.TokenID, 6, cs "a"⟩,
       ⟨.TokenEquals, 7, cs "="⟩, ⟨.TokenNumber, 8, cs "1"⟩, ⟨.TokenID, 10, cs "a"⟩,
       ⟨.TokenEquals, 11, cs "="⟩, ⟨.TokenNumber, 12, cs "2"⟩,
       ⟨.TokenClose, 13, cs "\x7d\x7d"⟩, ⟨.TokenEOF, 15, cs ""⟩] (by decide)]
    decide
  · simp

/-! ### C7 — helper registration (spec §6 `registerHelper`) -/

/-- C7: `RegisterHelper` fails exactly when the name is already registered,
and the failure carries the structured `Helper already registered` error (the
Go code panics with that `fmt.Errorf` value; the panic outcome is the error
branch here); registering a fresh name extends the registry so that
`FindHelper` finds the new helper and every other name is unaffected.  The
builtin registry from `init()` registers if/unless/with/each. -/
theorem c7_register_helper {H : Type} (reg : List Char → Option H)
    (name : List Char) (h : H) :
    (FindHelper reg name ≠ none →
      RegisterHelper reg name h = .error (cs "Helper already registered: " ++ name)) ∧
    (FindHelper reg name = none →
      RegisterHelper reg name h = .ok (fun n => if n = name then some h else reg n) ∧
      ∀ reg2, RegisterHelper reg name h = .ok reg2 →
        FindHelper reg2 name = some h ∧
        ∀ m, m ≠ name → FindHelper reg2 m = FindHelper reg m) ∧
    (∃ breg, builtinHelpers = .ok breg ∧
      FindHelper breg (cs "if") = some .ifH ∧
      FindHelper breg (cs "unless") = some .unlessH ∧
      FindHelper breg (cs "with") = some .withH ∧
      FindHelper breg (cs "each") = some .eachH ∧
      RegisterHelper breg (cs "if") .ifH =
        .error (cs "Helper already registered: " ++ cs "if")) := by
  refine ⟨?_, ?_, ?_⟩
  · intro hne
    cases hx : reg name with
    | none => exact absurd hx hne
    | some v => simp [RegisterHelper, hx]
  · intro hnone
    have hx : reg name = none := hnone
    refine ⟨by simp [RegisterHelper, hx], ?_⟩
    intro reg2 hreg2
    simp only [RegisterHelper, hx] at hreg2
    cases hreg2
    constructor
    · simp [FindHelper]
    · intro m hm
      simp [FindHelper, hm]
  · exact ⟨_, rfl, rfl, rfl, rfl, rfl, rfl⟩

/-- C7 witness: the theorem applied to a concrete one-entry registry, with the
duplicate hypothesis discharged at `if` and the fresh hypothesis at `each`. -/
theorem c7_register_helper_witness :
    RegisterHelper (fun n => if n = cs "if" then some BuiltinHelper.ifH else none)
        (cs "if") BuiltinHelper.unlessH =
      .error (cs "Helper already registered: " ++ cs "if") ∧
    RegisterHelper (fun n => if n = cs "if" then some BuiltinHelper.ifH else none)
        (cs "each") BuiltinHelper.eachH =
      .ok (fun n => if n = cs "each" then some BuiltinHelper.eachH
            else if n = cs "if" then some BuiltinHelper.ifH else none) := by
  constructor
  · exact (c7_register_helper _ _ _).1 (by decide)
  · exact ((c7_register_helper _ _ _).2.1 (by decide)).1

/-! ### C10 — iteration data frames (src/data_frame.go) -/

theorem dfSet_last (as : List DataFrame) (fr : DataFrame) (key : List Char) (v : HVal) :
    dfSet ⟨as ++ [fr]⟩ as.length key v =
      ⟨as ++ [⟨fr.parent, fun q => if q = key then some v else fr.data q⟩]⟩ := by
  simp [dfSet, dfGetFrame, listGetDAppendLen, listSetAppendLen]

/-- C10: `NewIterDataFrame` allocates a fresh frame whose parent is the given
frame `p`; it maps `index` to `i`, `key` to `k`, `first` to true exactly when
`i = 0` and `last` to true exactly when `i = length - 1`; it retains every
other entry of `p`; the frames already in the store (in particular `p`) are
unchanged, and a subsequent `Set` on the new frame still leaves them
unchanged. -/
theorem c10_new_iter_data_frame (s : DFStore) (p : Nat) (hp : p < s.frames.length)
    (n i : Int) (k : HVal) :
    (NewIterDataFrame s p n i k).2 = s.frames.length ∧
    (dfGetFrame (NewIterDataFrame s p n i k).1 (NewIterDataFrame s p n i k).2).parent =
      some p ∧
    dfGet (NewIterDataFrame s p n i k).1 (NewIterDataFrame s p n i k).2 (cs "index") =
      some (.vint i) ∧
    dfGet (NewIterDataFrame s p n i k).1 (NewIterDataFrame s p n i k).2 (cs "key") =
      some k ∧
    (dfGet (NewIterDataFrame s p n i k).1 (NewIterDataFrame s p n i k).2 (cs "first") =
      some (.vbool true) ↔ i = 0) ∧
    (dfGet (NewIterDataFrame s p n i k).1 (NewIterDataFrame s p n i k).2 (cs "last") =
      some (.vbool true) ↔ i = n - 1) ∧
    (∀ q, q ≠ cs "index" → q ≠ cs "key" → q ≠ cs "first" → q ≠ cs "last" →
      dfGet (NewIterDataFrame s p n i k).1 (NewIterDataFrame s p n i k).2 q = dfGet s p q) ∧
    (∀ j, j < s.frames.length →
      dfGetFrame (NewIterDataFrame s p n i k).1 j = dfGetFrame s j) ∧
    (∀ key2 v2 j, j < s.frames.length →
      dfGetFrame
          (dfSet (NewIterDataFrame s p n i k).1 (NewIterDataFrame s p n i k).2 key2 v2) j =
        dfGetFrame s j) := by
  refine ⟨rfl, ?_, ?_, ?_, ?_, ?_, ?_, ?_, ?_⟩
  · simp [NewIterDataFrame, dfCopy, dfSet_last, dfGetFrame, listGetDAppendLen]
  · simp only [NewIterDataFrame, dfCopy, dfSet_last, dfGet, dfGetFrame, listGetDAppendLen]
    rfl
  · simp only [NewIterDataFrame, dfCopy, dfSet_last, dfGet, dfGetFrame, listGetDAppendLen]
    rfl
  · simp only [NewIterDataFrame, dfCopy, dfSet_last, dfGet, dfGetFrame, listGetDAppendLen]
    rw [if_neg (show ¬(cs "first" = cs "last") by decide), if_pos trivial]
    simp [beq_iff_eq]
  · simp only [NewIterDataFrame, dfCopy, dfSet_last, dfGet, dfGetFrame, listGetDAppendLen]
    rw [if_pos trivial]
    simp [beq_iff_eq]
  · intro q h1 h2 h3 h4
    simp only [NewIterDataFrame, dfCopy, dfSet_last, dfGet, dfGetFrame, listGetDAppendLen]
    simp [h1, h2, h3, h4]
  · intro j hj
    simp only [NewIterDataFrame, dfCopy, dfSet_last]
    exact listGetDAppendLeft _ _ _ _ hj
  · intro key2 v2 j hj
    simp only [NewIterDataFrame, dfCopy, dfSet_last]
    exact listGetDAppendLeft _ _ _ _ hj

/-- C10 witness: the theorem applied to a concrete one-frame store. -/
theorem c10_new_iter_data_frame_witness :
    0 < (DFStore.mk [⟨none, fun q => if q = cs "user" then some (.vint 9) else none⟩]).frames.length ∧
    dfGet (NewIterDataFrame
        ⟨[⟨none, fun q => if q = cs "user" then some (.vint 9) else none⟩]⟩ 0 2 0
        (.vstr (cs "k0"))).1
      (NewIterDataFrame
        ⟨[⟨none, fun q => if q = cs "user" then some (.vint 9) else none⟩]⟩ 0 2 0
        (.vstr (cs "k0"))).2 (cs "index") = some (.vint 0) :=
  ⟨by simp,
   (c10_new_iter_data_frame
      ⟨[⟨none, fun q => if q = cs "user" then some (.vint 9) else none⟩]⟩ 0 (by simp) 2 0
      (.vstr (cs "k0"))).2.2.1⟩

/-! ### C9 — escaped open delimiter (spec §4.1) -/

/-- C9: the spec says `\x5c{{` (not preceded by a second backslash) is emitted
as literal content with the backslash dropped, including at the very start of
the input.  Mid-input this holds (second conjunct: the backslash is dropped
and no expression tokens are produced).  At the start of the input it does
not: `lexContent` checks the character before the escape with `l.backup()`
(lexer.go lines 223-229), and at position 0 the stale zero width makes
`l.next()` re-read the backslash itself, so the branch concludes it is the
escaped-escape case; the whole of `\x5c{{foo}}` is then emitted as one content
token with the backslash kept. -/
theorem c9_escaped_open_mustache_start_bug :
    tokenize (cs "\x5c{{foo}}") =
      [⟨.TokenContent, 0, cs "\x5c{{foo}}"⟩, ⟨.TokenEOF, 8, []⟩] ∧
    tokenize (cs "a\x5c{{b}}") =
      [⟨.TokenContent, 0, cs "a"⟩, ⟨.TokenContent, 2, cs "{{b}}"⟩, ⟨.TokenEOF, 7, []⟩] := by
  constructor <;> decide

/-! ### C3 — the `each` helper (spec §4.4) -/

/-- C3 counterexample: the claim says `each` sets `@index`/`@key`/`@first`/
`@last` in a fresh private data frame for each iteration; but `eachHelper`
(mustache_test.go lines 324-348) only calls `EvaluateBlockWith` per element —
its trace on the one-element slice `["a"]` is exactly push/eval/pop, with no
private-data write and no frame creation. -/
theorem c3_each_no_iteration_data_counterexample :
    eachHelperTrace (.varr [.vstr (cs "a")]) =
      [.pushCtx (.vstr (cs "a")), .evalBlock, .popCtx] ∧
    hasDataWrite (eachHelperTrace (.varr [.vstr (cs "a")])) = false :=
  ⟨rfl, rfl⟩

theorem hasDataWrite_flatMap_ebw (xs : List HVal) :
    hasDataWrite (xs.flatMap EvaluateBlockWith) = false := by
  induction xs with
  | nil => rfl
  | cons x xs ih => simpa [EvaluateBlockWith, hasDataWrite] using ih

/-- C3 (amended): `each` applied to a truthy array/slice renders the body once
per element in source order with that element as the context; it writes no
private data (no `@index`/`@key`/`@first`/`@last`, no new frame); applied to a
map it renders the body once per map *value* (keys are not bound; Go map
enumeration order, modelled by the entry order); applied to a falsy first
parameter it renders the inverse section; applied to a truthy non-iterable
value (e.g. a number or nonempty string) it renders nothing. -/
theorem c3_each_helper_amended :
    (∀ xs : List HVal, xs ≠ [] →
      eachHelperTrace (.varr xs) =
        xs.flatMap (fun x => [.pushCtx x, .evalBlock, .popCtx])) ∧
    (∀ v : HVal, TruthFirstParam v = false → eachHelperTrace v = [.evalInverse]) ∧
    (∀ m : List (List Char × HVal), m ≠ [] →
      eachHelperTrace (.vmap m) =
        (m.map Prod.snd).flatMap (fun x => [.pushCtx x, .evalBlock, .popCtx])) ∧
    (∀ i : Int, i ≠ 0 → eachHelperTrace (.vint i) = []) ∧
    (∀ s : List Char, s ≠ [] → eachHelperTrace (.vstr s) = []) ∧
    (∀ v : HVal, hasDataWrite (eachHelperTrace v) = false) := by
  refine ⟨?_, ?_, ?_, ?_, ?_, ?_⟩
  · intro xs hxs
    simp only [eachHelperTrace, TruthFirstParam, IsTruth, hxs, Bool.not_eq_true]
    simp [hxs, EvaluateBlockWith]
    rfl
  · intro v hv
    simp [eachHelperTrace, hv]
  · intro m hm
    simp [eachHelperTrace, TruthFirstParam, IsTruth, hm, EvaluateBlockWith]
    rfl
  · intro i hi
    simp [eachHelperTrace, TruthFirstParam, IsTruth, hi]
  · intro s hs
    simp [eachHelperTrace, TruthFirstParam, IsTruth, hs]
  · intro v
    cases v with
    | vnil => rfl
    | vbool b => cases b <;> rfl
    | vint i =>
      by_cases hi : i = 0
      · subst hi; rfl
      · simp [eachHelperTrace, TruthFirstParam, IsTruth, hi, hasDataWrite]
    | vstr s =>
      cases s with
      | nil => rfl
      | cons c t => rfl
    | varr xs =>
      cases xs with
      | nil => rfl
      | cons x t =>
        simpa [eachHelperTrace, TruthFirstParam, IsTruth] using
          hasDataWrite_flatMap_ebw (x :: t)
    | vmap m =>
      cases m with
      | nil => rfl
      | cons e t =>
        simpa [eachHelperTrace, TruthFirstParam, IsTruth] using
          hasDataWrite_flatMap_ebw ((e :: t).map Prod.snd)

/-- C3 witness: the amended theorem applied at concrete inputs, discharging
its hypotheses there. -/
theorem c3_each_helper_amended_witness :
    eachHelperTrace (.varr [.vint 1, .vint 2]) =
      [.pushCtx (.vint 1), .evalBlock, .popCtx,
       .pushCtx (.vint 2), .evalBlock, .popCtx] ∧
    eachHelperTrace .vnil = [.evalInverse] ∧
    eachHelperTrace (.vmap [(cs "k", .vint 3)]) =
      [.pushCtx (.vint 3), .evalBlock, .popCtx] ∧
    eachHelperTrace (.vint 5) = [] ∧
    eachHelperTrace (.vstr (cs "x")) = [] :=
  ⟨(c3_each_helper_amended.1 [.vint 1, .vint 2] (by simp)).trans rfl,
   c3_each_helper_amended.2.1 .vnil rfl,
   (c3_each_helper_amended.2.2.1 [(cs "k", .vint 3)] (by simp)).trans rfl,
   c3_each_helper_amended.2.2.2.1 5 (by decide),
   c3_each_helper_amended.2.2.2.2.1 (cs "x") (by decide)⟩


/-! ### C8 — token order and terminal errors (spec §4.1 contract) -/

theorem strPref_length (w s : List Char) (h : strPref w s = true) : w.length ≤ s.length := by
  induction w generalizing s with
  | nil => simp
  | cons a as ih =>
    cases s with
    | nil => simp [strPref] at h
    | cons b bs =>
      simp only [strPref, Bool.and_eq_true] at h
      simpa using ih bs h.2

theorem lexAcceptRun_state (v : List Char) (l : LexState) :
    (lexAcceptRun v l).input = l.input ∧ (lexAcceptRun v l).start = l.start ∧
    l.pos ≤ (lexAcceptRun v l).pos ∧ (lexAcceptRun v l).width ≤ 1 := by
  unfold lexAcceptRun
  refine ⟨rfl, rfl, by simp, ?_⟩
  dsimp only; split <;> omega

theorem lexPeek_state (l : LexState) :
    (lexPeek l).2.input = l.input ∧ (lexPeek l).2.start = l.start ∧
    (lexPeek l).2.pos = l.pos ∧ (lexPeek l).2.width ≤ 1 := by
  unfold lexPeek lexNext lexBackup
  rcases hr : rem l with _ | ⟨c, rest⟩ <;> simp [hr]

theorem stepIgnorable_ok (l : LexState) (h : InvL l) : stepOK l (stepIgnorable l) := by
  obtain ⟨hsp, hw⟩ := h
  unfold stepIgnorable lexIgnore
  dsimp only [stepOK, InvL]
  and_intros <;> first
    | (simp <;> omega)
    | (dsimp only; split <;> omega)
    | (dsimp only; omega)

theorem stepEscaped_ok (l : LexState) (h : InvL l) : stepOK l (stepEscapedOpenMustache l) := by
  obtain ⟨hsp, hw⟩ := h
  unfold stepEscapedOpenMustache lexNext lexIgnore
  rcases hr : rem l with _ | ⟨c, rest⟩ <;>
    simp only [hr] <;>
    dsimp only [stepOK, InvL] <;>
    and_intros <;> first
      | (simp <;> omega)
      | (dsimp only; split <;> omega)
      | (dsimp only; omega)

theorem stepOpenMustache_ok (l : LexState) (h : InvL l) : stepOK l (stepOpenMustache l) := by
  obtain ⟨hsp, hw⟩ := h
  unfold stepOpenMustache emitTok errorf
  dsimp only
  split
  · rename_i n tk fn heq
    have htk : tk ≠ .TokenError := by
      rintro rfl
      repeat' split at heq
      all_goals simp_all
    dsimp only [stepOK, InvL]
    and_intros <;> first
      | (simp <;> omega)
      | (dsimp only; split <;> omega)
      | (dsimp only; omega)
      | (simp; exact htk)
  · dsimp only [stepOK, InvL]
    and_intros <;> simp

theorem stepCloseMustache_ok (l : LexState) (h : InvL l) : stepOK l (stepCloseMustache l) := by
  obtain ⟨hsp, hw⟩ := h
  unfold stepCloseMustache emitTok errorf
  dsimp only
  split
  · rename_i n tk heq
    have htk : tk ≠ .TokenError := by
      rintro rfl
      repeat' split at heq
      all_goals simp_all
    dsimp only [stepOK, InvL]
    and_intros <;> first
      | (simp <;> omega)
      | (dsimp only; split <;> omega)
      | (dsimp only; omega)
      | (simp; exact htk)
  · dsimp only [stepOK, InvL]
    and_intros <;> simp

theorem stepIdent_ok (l : LexState) (h : InvL l) : stepOK l (stepIdent l) := by
  obtain ⟨hsp, hw⟩ := h
  unfold stepIdent emitTok errorf
  dsimp only
  split
  · dsimp only [stepOK, InvL]
    and_intros <;> first
      | (simp <;> omega)
      | (dsimp only; split <;> omega)
      | (dsimp only; omega)
  · dsimp only [stepOK, InvL]
    and_intros <;> simp
theorem lexAccept_state (v : List Char) (l : LexState) :
    (lexAccept v l).2.input = l.input ∧ (lexAccept v l).2.start = l.start ∧
    l.pos ≤ (lexAccept v l).2.pos ∧ (lexAccept v l).2.width ≤ 1 := by
  unfold lexAccept lexNext lexBackup
  rcases hr : rem l with _ | ⟨c, rest⟩ <;> simp only [hr]
  · simp
  · split <;> simp

theorem scanStringChars_one (d : Char) (s : List Char) (n : Nat)
    (h : scanStringChars d s = some n) : 1 ≤ n := by
  cases s with
  | nil => simp [scanStringChars] at h
  | cons c rest =>
    unfold scanStringChars at h
    repeat' split at h
    all_goals simp_all
    all_goals omega


theorem lexNext_state (l : LexState) :
    (lexNext l).2.input = l.input ∧ (lexNext l).2.start = l.start ∧
    l.pos ≤ (lexNext l).2.pos ∧ (lexNext l).2.width ≤ 1 := by
  unfold lexNext
  rcases hr : rem l with _ | ⟨c, rest⟩ <;> simp [hr]

theorem scanNumber_state (l : LexState) :
    (scanNumber l).2.input = l.input ∧ (scanNumber l).2.start = l.start ∧
    l.pos ≤ (scanNumber l).2.pos ∧ (scanNumber l).2.width ≤ 1 := by
  unfold scanNumber
  rcases h1 : lexAccept (cs "+-") l with ⟨b1, l1⟩
  have s1 := lexAccept_state (cs "+-") l
  rw [h1] at s1; dsimp only at s1
  try dsimp only
  rcases h2 : lexAccept (cs "0") l1 with ⟨z, l2⟩
  have s2 := lexAccept_state (cs "0") l1
  rw [h2] at s2; dsimp only at s2
  try dsimp only
  rcases h3 : (if z then lexAccept (cs "xX") l2 else (false, l2)) with ⟨hx, l3⟩
  have s3 : l3.input = l2.input ∧ l3.start = l2.start ∧ l2.pos ≤ l3.pos := by
    cases z with
    | true =>
      have := lexAccept_state (cs "xX") l2
      rw [if_pos rfl] at h3; rw [h3] at this
      exact ⟨this.1, this.2.1, this.2.2.1⟩
    | false =>
      simp only [Bool.false_eq_true, if_false, Prod.mk.injEq] at h3
      rw [← h3.2]
      exact ⟨rfl, rfl, le_refl _⟩
  try dsimp only
  have s4 := lexAcceptRun_state (if z && hx then hexDigits else decDigits) l3
  rcases h5 : lexAccept (cs ".") (lexAcceptRun (if z && hx then hexDigits else decDigits) l3) with ⟨dot, l5⟩
  have s5 := lexAccept_state (cs ".") (lexAcceptRun (if z && hx then hexDigits else decDigits) l3)
  rw [h5] at s5; dsimp only at s5
  try dsimp only
  have s6 : (if dot then lexAcceptRun (if z && hx then hexDigits else decDigits) l5 else l5).input = l5.input ∧
      (if dot then lexAcceptRun (if z && hx then hexDigits else decDigits) l5 else l5).start = l5.start ∧
      l5.pos ≤ (if dot then lexAcceptRun (if z && hx then hexDigits else decDigits) l5 else l5).pos := by
    cases dot with
    | true =>
      have := lexAcceptRun_state (if z && hx then hexDigits else decDigits) l5
      rw [if_pos rfl]
      exact ⟨this.1, this.2.1, this.2.2.1⟩
    | false => simp
  rcases h7 : lexAccept (cs "eE") (if dot then lexAcceptRun (if z && hx then hexDigits else decDigits) l5 else l5) with ⟨e, l7⟩
  have s7 := lexAccept_state (cs "eE") (if dot then lexAcceptRun (if z && hx then hexDigits else decDigits) l5 else l5)
  rw [h7] at s7; dsimp only at s7
  try dsimp only
  have s8 : (if e then
        match lexAccept (cs "+-") l7 with
        | (_, la) => lexAcceptRun decDigits la
      else l7).input = l7.input ∧
      (if e then
        match lexAccept (cs "+-") l7 with
        | (_, la) => lexAcceptRun decDigits la
      else l7).start = l7.start ∧
      l7.pos ≤ (if e then
        match lexAccept (cs "+-") l7 with
        | (_, la) => lexAcceptRun decDigits la
      else l7).pos := by
    cases e with
    | true =>
      rw [if_pos rfl]
      rcases ha : lexAccept (cs "+-") l7 with ⟨ba, la⟩
      have sa := lexAccept_state (cs "+-") l7
      rw [ha] at sa
      have sb := lexAcceptRun_state decDigits la
      dsimp only
      exact ⟨sb.1.trans sa.1, (sb.2.1).trans sa.2.1, le_trans sa.2.2.1 sb.2.2.1⟩
    | false => simp
  generalize hL8 : (if e then
        match lexAccept (cs "+-") l7 with
        | (_, la) => lexAcceptRun decDigits la
      else l7) = l8 at s8 ⊢
  rcases h9 : lexAccept (cs "i") l8 with ⟨b9, l9⟩
  have s9 := lexAccept_state (cs "i") l8
  rw [h9] at s9; dsimp only at s9
  try dsimp only
  rcases h10 : lexPeek l9 with ⟨pk, l10⟩
  have s10 := lexPeek_state l9
  rw [h10] at s10; dsimp only at s10
  try dsimp only
  have hinput : l10.input = l.input := by
    rw [s10.1, s9.1, s8.1, s7.1, s6.1, s5.1, s4.1, s3.1, s2.1, s1.1]
  have hstart : l10.start = l.start := by
    rw [s10.2.1, s9.2.1, s8.2.1, s7.2.1, s6.2.1, s5.2.1, s4.2.1, s3.2.1, s2.2.1, s1.2.1]
  have hpos : l.pos ≤ l10.pos := by
    have := s4.2.2.1
    have := s6.2.2
    have := s8.2.2
    have := s10.2.2.1
    omega
  cases pk with
  | none =>
    dsimp only
    exact ⟨hinput, hstart, by omega, s10.2.2.2⟩
  | some c =>
    dsimp only
    split
    · have sn := lexNext_state l10
      dsimp only
      exact ⟨sn.1.trans hinput, sn.2.1.trans hstart, by have := sn.2.2.1; omega, sn.2.2.2⟩
    · dsimp only
      exact ⟨hinput, hstart, by omega, s10.2.2.2⟩


theorem stepComment_ok (l : LexState) (h : InvL l) : stepOK l (stepComment l) := by
  obtain ⟨hsp, hw⟩ := h
  unfold stepComment emitTok errorf lexNext
  dsimp only
  repeat' split
  all_goals (dsimp only [stepOK, InvL]; and_intros)
  all_goals first
    | (simp <;> omega)
    | (dsimp only; split <;> first | (simp <;> omega) | omega)
    | (dsimp only; omega)

set_option maxHeartbeats 2000000 in
theorem stepExpression_ok (l : LexState) (h : InvL l) : stepOK l (stepExpression l) := by
  obtain ⟨hsp, hw⟩ := h
  unfold stepExpression emitPendingContent emitTok errorf lexNext lexBackup
  dsimp only
  by_cases hcl : (strPref (cs "\x7d\x7d") (rem l) || strPref (cs "~\x7d\x7d") (rem l)) = true
  · simp only [if_pos hcl]
    dsimp only [stepOK, InvL]
    and_intros <;> first
      | (simp <;> omega)
      | (dsimp only; split <;> first | (simp <;> omega) | omega)
      | (dsimp only; omega)
  · simp only [if_neg hcl]
    rcases hbp : rOpenBlockParams (rem l) with _ | n <;> dsimp only
    · by_cases ht : strPref (cs "true") (rem l) = true
      · simp only [if_pos ht]
        dsimp only [stepOK, InvL]
        and_intros <;> first
          | (simp <;> omega)
          | (dsimp only; split <;> first | (simp <;> omega) | omega)
          | (dsimp only; omega)
      · simp only [if_neg ht]
        by_cases hf : strPref (cs "false") (rem l) = true
        · simp only [if_pos hf]
          dsimp only [stepOK, InvL]
          and_intros <;> first
            | (simp <;> omega)
            | (dsimp only; split <;> first | (simp <;> omega) | omega)
            | (dsimp only; omega)
        · simp only [if_neg hf]
          rcases hr : rem l with _ | ⟨c, rest⟩ <;> dsimp only
          · dsimp only [stepOK, InvL]
            and_intros <;> simp
          · by_cases hx0 : isIgnorable (some c) = true
            · rw [if_pos hx0]
              dsimp only [stepOK, InvL]
              and_intros <;> first
                | (simp <;> omega)
                | (dsimp only; omega)
            · rw [if_neg hx0]
              by_cases hx1 : c = '('
              · rw [if_pos hx1]
                dsimp only [stepOK, InvL]
                and_intros <;> first
                  | (simp <;> omega)
                  | (dsimp only; omega)
              · rw [if_neg hx1]
                by_cases hx2 : c = ')'
                · rw [if_pos hx2]
                  dsimp only [stepOK, InvL]
                  and_intros <;> first
                    | (simp <;> omega)
                    | (dsimp only; omega)
                · rw [if_neg hx2]
                  by_cases hx3 : c = '='
                  · rw [if_pos hx3]
                    dsimp only [stepOK, InvL]
                    and_intros <;> first
                      | (simp <;> omega)
                      | (dsimp only; omega)
                  · rw [if_neg hx3]
                    by_cases hx4 : c = '@'
                    · rw [if_pos hx4]
                      dsimp only [stepOK, InvL]
                      and_intros <;> first
                        | (simp <;> omega)
                        | (dsimp only; omega)
                    · rw [if_neg hx4]
                      by_cases hx5 : (c = dq || c = sq) = true
                      · rw [if_pos hx5]
                        dsimp only [stepOK, InvL]
                        and_intros <;> first
                          | (simp <;> omega)
                          | (dsimp only; omega)
                      · rw [if_neg hx5]
                        by_cases hx6 : (c = '/' || c = '.') = true
                        · rw [if_pos hx6]
                          dsimp only [stepOK, InvL]
                          and_intros <;> first
                            | (simp <;> omega)
                            | (dsimp only; omega)
                        · rw [if_neg hx6]
                          by_cases hx7 : c = '|'
                          · rw [if_pos hx7]
                            dsimp only [stepOK, InvL]
                            and_intros <;> first
                              | (simp <;> omega)
                              | (dsimp only; omega)
                          · rw [if_neg hx7]
                            by_cases hx8 : (c = '+' || c = '-' || ('0' ≤ c && c ≤ '9')) = true
                            · rw [if_pos hx8]
                              dsimp only [stepOK, InvL]
                              and_intros <;> first
                                | (simp <;> omega)
                                | (dsimp only; omega)
                            · rw [if_neg hx8]
                              by_cases hx9 : (!unallowedIDChar c) = true
                              · rw [if_pos hx9]
                                dsimp only [stepOK, InvL]
                                and_intros <;> first
                                  | (simp <;> omega)
                                  | (dsimp only; omega)
                              · rw [if_neg hx9]
                                dsimp only [stepOK, InvL]
                                and_intros <;> first
                                  | (simp <;> omega)
                                  | (dsimp only; omega)
    · dsimp only [stepOK, InvL]
      and_intros <;> first
        | (simp <;> omega)
        | (dsimp only; split <;> first | (simp <;> omega) | omega)
        | (dsimp only; omega)

theorem stepString_ok (l : LexState) (h : InvL l) : stepOK l (stepString l) := by
  obtain ⟨hsp, hw⟩ := h
  unfold stepString lexNext lexIgnore lexBackup emitTok errorf rem
  rcases hr : List.drop l.pos l.input with _ | ⟨delim, rest⟩ <;> dsimp only
  · dsimp only [stepOK, InvL]
    and_intros <;> first
      | (simp <;> omega)
      | (dsimp only; omega)
  · rcases hs : scanStringChars delim (List.drop (l.pos + 1) l.input) with _ | n <;> dsimp only
    · dsimp only [stepOK, InvL]
      and_intros <;> first
        | (simp <;> omega)
        | (dsimp only; omega)
    · have hone := scanStringChars_one delim _ _ hs
      rcases hr2 : List.drop (l.pos + 1 + n - 1) l.input with _ | ⟨c2, r2⟩ <;> dsimp only <;>
        · dsimp only [stepOK, InvL]
          and_intros <;> first
            | (simp <;> omega)
            | (dsimp only; omega)

theorem stepNumber_ok (l : LexState) (h : InvL l) : stepOK l (stepNumber l) := by
  obtain ⟨hsp, hw⟩ := h
  unfold stepNumber emitTok errorf
  dsimp only
  rcases hq1 : scanNumber l with ⟨ok1, l1⟩
  have s1 := scanNumber_state l
  rw [hq1] at s1; dsimp only at s1
  obtain ⟨u1, v1, w1, x1⟩ := s1
  by_cases hok1 : (!ok1) = true
  · rw [if_pos hok1]
    dsimp only [stepOK, InvL]
    and_intros <;> first
      | (simp <;> omega)
      | (dsimp only; omega)
  · rw [if_neg hok1]
    rcases hq2 : lexPeek l1 with ⟨sg, l2⟩
    have s2 := lexPeek_state l1
    rw [hq2] at s2; dsimp only at s2
    obtain ⟨u2, v2, w2, x2⟩ := s2
    by_cases hsg : (sg = some '+' || sg = some '-') = true
    · rw [if_pos hsg]
      rcases hq3 : scanNumber l2 with ⟨ok2, l3⟩
      have s3 := scanNumber_state l2
      rw [hq3] at s3; dsimp only at s3
      obtain ⟨u3, v3, w3, x3⟩ := s3
      by_cases hok2 : (!ok2) = true
      · rw [if_pos hok2]
        dsimp only [stepOK, InvL]
        and_intros <;> first
          | (simp <;> omega)
          | (dsimp only; omega)
      · rw [if_neg hok2]
        by_cases hi : l3.input.getD (l3.pos - 1) ' ' ≠ 'i'
        · rw [if_pos hi]
          dsimp only [stepOK, InvL]
          and_intros <;> first
            | (simp <;> omega)
            | (dsimp only; omega)
        · rw [if_neg hi]
          dsimp only [stepOK, InvL]
          and_intros <;> first
            | (simp <;> omega)
            | (dsimp only; omega)
    · rw [if_neg hsg]
      dsimp only [stepOK, InvL]
      and_intros <;> first
        | (simp <;> omega)
        | (dsimp only; omega)

theorem stepContent_ok (l : LexState) (h : InvL l) : stepOK l (stepContent l) := by
  obtain ⟨hsp, hw⟩ := h
  unfold stepContent contentTrans contentFall emitPendingContent emitTok lexNext lexBackup rem
  dsimp only
  by_cases hesc : strPref (cs "\x5c\x7b\x7b") (List.drop l.pos l.input) = true
  · rw [if_pos hesc]
    rcases hr1 : List.drop (l.pos - l.width) l.input with _ | ⟨c, rest⟩ <;> dsimp only
    · exfalso
      have h3 := strPref_length _ _ hesc
      have e1 : (cs "\x5c\x7b\x7b").length = 3 := rfl
      have e2 := congrArg List.length hr1
      simp only [List.length_drop, List.length_nil, e1] at h3 e2
      omega
    · by_cases hc : some c ≠ some bsl
      · rw [if_pos hc]
        dsimp only [stepOK, InvL]
        and_intros <;> first
          | (simp <;> omega)
          | (dsimp only; split <;> first | (simp <;> omega) | omega)
          | (dsimp only; omega)
      · rw [if_neg hc]
        rcases hr2 : List.drop (l.pos - l.width + 1) l.input with _ | ⟨c2, r2⟩ <;> dsimp only <;>
          · dsimp only [stepOK, InvL]
            and_intros <;> first
              | (simp <;> omega)
              | (dsimp only; split <;> first | (simp <;> omega) | omega)
              | (dsimp only; omega)
  · rw [if_neg hesc]
    by_cases hcd : (rOpenCommentDash (List.drop l.pos l.input)).isSome = true
    · rw [if_pos hcd]
      dsimp only [stepOK, InvL]
      and_intros <;> first
        | (simp <;> omega)
        | (dsimp only; split <;> first | (simp <;> omega) | omega)
        | (dsimp only; omega)
    · rw [if_neg hcd]
      by_cases hcc : (rOpenComment (List.drop l.pos l.input)).isSome = true
      · rw [if_pos hcc]
        dsimp only [stepOK, InvL]
        and_intros <;> first
          | (simp <;> omega)
          | (dsimp only; split <;> first | (simp <;> omega) | omega)
          | (dsimp only; omega)
      · rw [if_neg hcc]
        by_cases hop : strPref (cs "\x7b\x7b") (List.drop l.pos l.input) = true
        · rw [if_pos hop]
          dsimp only [stepOK, InvL]
          and_intros <;> first
            | (simp <;> omega)
            | (dsimp only; split <;> first | (simp <;> omega) | omega)
            | (dsimp only; omega)
        · rw [if_neg hop]
          rcases hr : List.drop l.pos l.input with _ | ⟨c, rest⟩ <;> dsimp only <;>
            · dsimp only [stepOK, InvL]
              and_intros <;> first
                | (simp <;> omega)
                | (dsimp only; split <;> first | (simp <;> omega) | omega)
                | (dsimp only; omega)

theorem lexStep_ok (fn : LexFn) (l : LexState) (h : InvL l) : stepOK l (lexStep fn l) := by
  cases fn with
  | content => exact stepContent_ok l h
  | escapedOpenMustache => exact stepEscaped_ok l h
  | openMustache => exact stepOpenMustache_ok l h
  | closeMustache => exact stepCloseMustache_ok l h
  | expression => exact stepExpression_ok l h
  | comment => exact stepComment_ok l h
  | ignorable => exact stepIgnorable_ok l h
  | strLit => exact stepString_ok l h
  | number => exact stepNumber_ok l h
  | ident => exact stepIdent_ok l h

theorem listDropLastAppend (as bs : List Token) (h : bs ≠ []) :
    (as ++ bs).dropLast = as ++ bs.dropLast := by
  induction as with
  | nil => rfl
  | cons a as ih =>
    rcases hc : as ++ bs with _ | ⟨x, xs⟩
    · exact absurd (List.append_eq_nil.1 hc).2 h
    · simp only [List.cons_append, hc, List.dropLast_cons₂, List.cons.injEq, true_and]
      rw [← hc, ih]

theorem lexRunAux_ok (fuel : Nat) (fn : LexFn) (l : LexState) (h : InvL l) :
    List.Chain' (fun t u => t.pos ≤ u.pos) (lexRunAux fuel fn l) ∧
    (∀ t ∈ lexRunAux fuel fn l, l.start ≤ t.pos) ∧
    (∀ t ∈ (lexRunAux fuel fn l).dropLast, t.kind ≠ .TokenError) := by
  induction fuel generalizing fn l with
  | zero => simp [lexRunAux]
  | succ fuel ih =>
    have hstep := lexStep_ok fn l h
    rcases hso : lexStep fn l with ⟨toks, next⟩
    rw [hso] at hstep
    cases next with
    | none =>
      have hrun : lexRunAux (fuel + 1) fn l = toks := by
        simp only [lexRunAux, hso]
      obtain ⟨hch, hge, hdl, -⟩ := hstep
      rw [hrun]
      exact ⟨hch, hge, hdl⟩
    | some p =>
      obtain ⟨fn2, l2⟩ := p
      have hrun : lexRunAux (fuel + 1) fn l = toks ++ lexRunAux fuel fn2 l2 := by
        simp only [lexRunAux, hso]
      obtain ⟨hch, hge, hdl, hinv2, hmono, hbound, hnoerr⟩ := hstep
      have hrec := ih fn2 l2 hinv2
      rw [hrun]
      refine ⟨?_, ?_, ?_⟩
      · refine List.Chain'.append hch hrec.1 ?_
        intro x hx y hy
        have hx2 : x ∈ toks := List.mem_of_mem_getLast? hx
        have hy2 : y ∈ lexRunAux fuel fn2 l2 := List.mem_of_mem_head? hy
        exact le_trans (hbound x hx2) (hrec.2.1 y hy2)
      · intro t ht
        rcases List.mem_append.1 ht with h1 | h1
        · exact hge t h1
        · exact le_trans hmono (hrec.2.1 t h1)
      · intro t ht
        by_cases hnil : lexRunAux fuel fn2 l2 = []
        · rw [hnil, List.append_nil] at ht
          exact hdl t ht
        · rw [listDropLastAppend _ _ hnil] at ht
          rcases List.mem_append.1 ht with h1 | h1
          · exact hnoerr t h1
          · exact hrec.2.2 t h1

/-- C8: for every input the lexer's token stream is in source order (each
token's position is at or after the previous one's), an error token can only
be the last token of the stream, and an unterminated string, comment or
expression ends the stream with a terminal error token carrying the
descriptive message of the Go `errorf` call. -/
theorem c8_lexer_order_and_terminal_error :
    (∀ (input : List Char),
      List.Chain' (fun t u => t.pos ≤ u.pos) (tokenize input)) ∧
    (∀ (input : List Char) (t : Token),
      t ∈ (tokenize input).dropLast → t.kind ≠ .TokenError) ∧
    tokenize (cs "\x7b\x7b" ++ [dq] ++ cs "ab") =
      [⟨.TokenOpen, 0, cs "\x7b\x7b"⟩, ⟨.TokenError, 3, cs "Unterminated string"⟩] ∧
    tokenize (cs "\x7b\x7b!-- x") = [⟨.TokenError, 0, cs "Unclosed comment"⟩] ∧
    tokenize (cs "\x7b\x7bfoo") =
      [⟨.TokenOpen, 0, cs "\x7b\x7b"⟩, ⟨.TokenID, 2, cs "foo"⟩,
       ⟨.TokenError, 5, cs "Unclosed expression"⟩] := by
  have hinv : ∀ input : List Char, InvL (initLexState input) := by
    intro input
    exact ⟨Nat.le_refl 0, Nat.zero_le 1⟩
  refine ⟨?_, ?_, ?_, ?_, ?_⟩
  · intro input
    exact (lexRunAux_ok _ _ _ (hinv input)).1
  · intro input t ht
    exact (lexRunAux_ok _ _ _ (hinv input)).2.2 t ht
  · decide
  · decide
  · decide

/-- C8 witness: the order/terminal-error theorem applied to a concrete stream. -/
theorem c8_lexer_order_and_terminal_error_witness :
    ((⟨.TokenOpen, 0, cs "\x7b\x7b"⟩ : Token) ∈ (tokenize (cs "\x7b\x7bfoo")).dropLast) ∧
    (⟨.TokenOpen, 0, cs "\x7b\x7b"⟩ : Token).kind ≠ .TokenError :=
  ⟨by decide,
   c8_lexer_order_and_terminal_error.2.1 (cs "\x7b\x7bfoo") _ (by decide)⟩

end Raymond
